import Mathlib

/-!
# Verification of the ledger-sdk-rust protocol stack

A shallow embedding, in Lean 4, of the parts of the `ledger-sdk-rust`
repository that the checked claims are about:

* the minimal big-endian unsigned / two's-complement signed integer encoders
  of `ledger-eth-app/src/eip712_high_level.rs` (`parse_uint_to_min_be`,
  `parse_int_to_min_be`), together with their JSON-value front ends;
* the EIP-712 field-definition encoder of
  `ledger-eth-app/src/commands/eip712/encoding/field_definition.rs`;
* the status-word mapping of `ledger-eth-app/src/errors.rs`
  (`map_ledger_error`, `describe_eth_status`) composed with the
  success/error split of `handle_response_error` in
  `ledger-device-base/src/lib.rs`;
* the signature-response parser of
  `ledger-eth-app/src/commands/eip712/signing/utils.rs` and the
  signature-expecting status handler `handle_response_error_signature`;
* the chunked-send primitive `send_chunks` of
  `ledger-device-base/src/lib.rs`;
* the high-level EIP-712 signing flow `sign_eip712_typed_data` of
  `ledger-eth-app/src/eip712_high_level.rs` together with the command
  modules it drives (`struct_definition/apdu.rs`,
  `struct_implementation/apdu.rs`, `signing/full.rs`).

Modelling conventions:

* Rust byte buffers (`Vec<u8>`, `&[u8]`) are `List Nat` whose members are
  `< 256`; machine-integer truncations (`as u8`, `as u16`) are explicit
  `% 256` / `% 65536`.
* `num_bigint::BigUint` / `BigInt` are `Nat` / `Int`.
* Rust `String` data is modelled as Lean `String`; where the code takes the
  UTF-8 bytes of a string (`as_bytes`, byte length) we use the code points
  via `strBytes`. For the ASCII strings appearing in every claim the two
  agree, and UTF-8 byte order coincides with code-point order, so the
  alphabetical `sort_by(name)` of the source is the Lean `String` order.
* fallible Rust functions returning `Result` become `Except`; error payloads
  that are `format!` strings in the source are modelled either by faithful
  string constants (where a claim inspects them, as in `describe_eth_status`)
  or by dedicated constructors recording the distinguishing data.
* `serde_json::Value` is modelled by `Json` below, with integral numbers
  only (no claim involves floating-point JSON numbers).
* the device sits behind the `Exchange` trait; it is modelled as an oracle
  `Device := Nat → APDUAnswer` giving the answer to the n-th exchange of a
  flow. The external crate `ledger-apdu` (not part of this repository's
  sources) defines `APDUErrorCode`; per the specification, its success code
  `NoError` is `0x9000`, and membership of other codes in that enum, and
  their descriptions, are abstracted by the oracle record `ExtCodes` —
  no claim depends on them.
-/

namespace LedgerSdk

/-- UTF-8 bytes of a string, modelled as the code points (exact for the
ASCII data appearing in all claims). -/
def strBytes (s : String) : List Nat := s.data.map Char.toNat

/-- Lexicographic order on byte strings — Rust's `Ord` on `String`
(byte-wise over UTF-8, which for these code-point lists is the same
order). -/
def bytesLe : List Nat → List Nat → Bool
  | [], _ => true
  | _ :: _, [] => false
  | a :: as, b :: bs => if a < b then true else if b < a then false else bytesLe as bs

/-- Structural worker for `natToBEBytes` (the fuel, always at least the
value, keeps the recursion kernel-computable). -/
def natToBEBytesGo : Nat → Nat → List Nat
  | 0, _ => []
  | fuel + 1, n => if n = 0 then [] else natToBEBytesGo fuel (n / 256) ++ [n % 256]

/-- `BigUint::to_bytes_be`: minimal big-endian bytes of `n`; `[]` for `0`
(the source pads the empty case explicitly where it can arise). -/
def natToBEBytes (n : Nat) : List Nat := natToBEBytesGo n n

/-- `BigUint::from_bytes_be`: interpret a big-endian byte string as a
natural number. -/
def beBytesToNat (l : List Nat) : Nat := l.foldl (fun acc b => acc * 256 + b) 0

/-- The trim loop of `parse_uint_to_min_be`
(`while out.len() > 1 && out[0] == 0 { out.remove(0); }`). -/
def trimLeadZeros : List Nat → List Nat
  | 0 :: b :: t => trimLeadZeros (b :: t)
  | l => l

/-- The negative-value trim loop of `parse_int_to_min_be`
(`while full.len() > 1 && full[0] == 0xFF && (full[1] & 0x80) == 0x80`). -/
def trimNegSignExt : List Nat → List Nat
  | 0xFF :: b :: t => if b &&& 0x80 = 0x80 then trimNegSignExt (b :: t) else 0xFF :: b :: t
  | l => l

/-- The non-negative trim loop of `parse_int_to_min_be`
(`while full.len() > 1 && full[0] == 0x00 && (full[1] & 0x80) == 0x00`). -/
def trimNonNegSignExt : List Nat → List Nat
  | 0 :: b :: t => if b &&& 0x80 = 0 then trimNonNegSignExt (b :: t) else 0 :: b :: t
  | l => l

/-- Errors of the numeric conversion functions of `eip712_high_level.rs`.
The source reports `format!` strings; each constructor records which of the
distinct messages was produced. -/
inductive NumErr where
  /-- "Invalid hex for uint{bits}/int{bits}: …" -/
  | invalidHex
  /-- "Invalid decimal string for uint{bits}/int{bits}" -/
  | invalidDecimal
  /-- "Expected number or numeric string for uint{bits}/int{bits}" -/
  | expectedNumeric
  /-- "uint{bits}/int{bits} value out of range" -/
  | outOfRange
  /-- "uint{bits}/int{bits} minimal encoding exceeds {size_bytes} bytes" -/
  | encodingExceeds
deriving DecidableEq, Repr

/-- serde_json `Value`, restricted to integral numbers (floating-point JSON
numbers play no part in any claim). -/
inductive Json where
  | null
  | bool (b : Bool)
  | num (n : Int)
  | str (s : String)
  | arr (elems : List Json)
  | obj (fields : List (String × Json))

/-- `Value::as_u64`: integral numbers representable as `u64`. -/
def Json.as_u64 : Json → Option Nat
  | .num n => if 0 ≤ n ∧ n < 2 ^ 64 then some n.toNat else none
  | _ => none

/-- `Value::as_i64`: integral numbers representable as `i64`. -/
def Json.as_i64 : Json → Option Int
  | .num n => if -(2 ^ 63) ≤ n ∧ n < 2 ^ 63 then some n else none
  | _ => none

/-- `Value::as_str`. -/
def Json.as_str : Json → Option String
  | .str s => some s
  | _ => none

/-- `Value::as_bool`. -/
def Json.as_bool : Json → Option Bool
  | .bool b => some b
  | _ => none

/-- `Value::get(key)` on an object (first binding wins, as in a map). -/
def Json.get : Json → String → Option Json
  | .obj fields, key => fields.lookup key
  | _, _ => none

/-- Numeric value of one hexadecimal digit. -/
def hexDigitVal (c : Char) : Option Nat :=
  if '0' ≤ c ∧ c ≤ '9' then some (c.toNat - '0'.toNat)
  else if 'a' ≤ c ∧ c ≤ 'f' then some (c.toNat - 'a'.toNat + 10)
  else if 'A' ≤ c ∧ c ≤ 'F' then some (c.toNat - 'A'.toNat + 10)
  else none

/-- `hex::decode`: an even number of hex digits, decoded pairwise to bytes. -/
def hexDecode : List Char → Option (List Nat)
  | [] => some []
  | [_] => none
  | c1 :: c2 :: t => do
    let hi ← hexDigitVal c1
    let lo ← hexDigitVal c2
    let rest ← hexDecode t
    pure ((16 * hi + lo) :: rest)

/-- Fold a non-empty all-digit character list to its decimal value. -/
def decDigitsVal : List Char → Option Nat
  | [] => none
  | ds =>
    if ds.all (fun c => '0' ≤ c ∧ c ≤ '9') then
      some (ds.foldl (fun acc c => acc * 10 + (c.toNat - '0'.toNat)) 0)
    else none

/-- `BigUint::parse_bytes(s, 10)`: optional leading `+`, then digits. -/
def parseBigUintDec : List Char → Option Nat
  | '+' :: ds => decDigitsVal ds
  | ds => decDigitsVal ds

/-- `BigInt::parse_bytes(s, 10)`: optional sign, then digits. -/
def parseBigIntDec : List Char → Option Int
  | '-' :: ds => (decDigitsVal ds).map (fun n => -(n : Int))
  | '+' :: ds => (decDigitsVal ds).map (fun n => (n : Int))
  | ds => (decDigitsVal ds).map (fun n => (n : Int))

/-- Rust `str::trim` (ASCII whitespace suffices for the claims). -/
def trimChars (l : List Char) : List Char :=
  ((l.dropWhile Char.isWhitespace).reverse.dropWhile Char.isWhitespace).reverse

/-- `List.isPrefixOf` on characters, mirroring Rust `str::starts_with`. -/
def startsWithChars (pre l : List Char) : Bool :=
  l.take pre.length = pre

/-- Rust `str::trim_start_matches("0x")`: strips every repetition of the
prefix. -/
def trimStartMatches0x : List Char → List Char
  | '0' :: 'x' :: rest => trimStartMatches0x rest
  | l => l

/-- The number-parsing front end of `Eip712Converter::parse_uint_to_min_be`
(`eip712_high_level.rs` lines 210–228): a JSON `u64`, a `0x` hex string, or
a decimal string, to an arbitrary-precision unsigned integer. -/
def parse_uint_value (value : Json) : Except NumErr Nat :=
  match value.as_u64 with
  | some u => .ok u
  | none =>
    match value.as_str with
    | some s =>
      let t := trimChars s.data
      if startsWithChars ['0', 'x'] t || startsWithChars ['0', 'X'] t then
        match hexDecode (t.drop 2) with
        | some bytes => .ok (beBytesToNat bytes)
        | none => .error .invalidHex
      else
        match parseBigUintDec t with
        | some n => .ok n
        | none => .error .invalidDecimal
    | none => .error .expectedNumeric

/-- The encoding back end of `Eip712Converter::parse_uint_to_min_be`
(`eip712_high_level.rs` lines 230–251): range check against `2^bits`, the
zero special case, minimal big-endian bytes, and the final width check. -/
def uint_min_be_encode (big : Nat) (size_bytes : Nat) : Except NumErr (List Nat) :=
  let bits := 8 * size_bytes
  if big ≥ 2 ^ bits then .error .outOfRange
  else if big = 0 then .ok [0]
  else
    let out := trimLeadZeros (natToBEBytes big)
    if out.length > size_bytes then .error .encodingExceeds
    else .ok out

/-- `Eip712Converter::parse_uint_to_min_be` (`eip712_high_level.rs`
lines 207–252). -/
def parse_uint_to_min_be (value : Json) (size_bytes : Nat) : Except NumErr (List Nat) := do
  let big ← parse_uint_value value
  uint_min_be_encode big size_bytes

/-- The number-parsing front end of `Eip712Converter::parse_int_to_min_be`
(`eip712_high_level.rs` lines 258–279): a JSON `i64`, a `-0x`/`0x` hex
string, or a decimal string, to an arbitrary-precision integer. -/
def parse_int_value (value : Json) : Except NumErr Int :=
  match value.as_i64 with
  | some i => .ok i
  | none =>
    match value.as_str with
    | some s =>
      let t := trimChars s.data
      if startsWithChars ['-', '0', 'x'] t || startsWithChars ['-', '0', 'X'] t then
        match hexDecode (t.drop 3) with
        | some bytes => .ok (-(beBytesToNat bytes : Int))
        | none => .error .invalidHex
      else if startsWithChars ['0', 'x'] t || startsWithChars ['0', 'X'] t then
        match hexDecode (t.drop 2) with
        | some bytes => .ok ((beBytesToNat bytes : Int))
        | none => .error .invalidHex
      else
        match parseBigIntDec t with
        | some n => .ok n
        | none => .error .invalidDecimal
    | none => .error .expectedNumeric

/-- The encoding back end of `Eip712Converter::parse_int_to_min_be`
(`eip712_high_level.rs` lines 281–322): range check, two's complement
modulo `2^bits`, minimal-byte production, width check, then sign-extension
trimming. -/
def int_min_be_encode (big : Int) (size_bytes : Nat) : Except NumErr (List Nat) :=
  let bits := 8 * size_bytes
  let maxPos : Int := 2 ^ (bits - 1) - 1
  let minNeg : Int := -(2 ^ (bits - 1) : Int)
  if big < minNeg ∨ big > maxPos then .error .outOfRange
  else
    let modulus : Nat := 2 ^ bits
    let asUint : Nat := if big < 0 then (modulus - (-big).toNat) % modulus else big.toNat
    let full0 := natToBEBytes asUint
    let full := if full0.isEmpty then [0] else full0
    if full.length > size_bytes then .error .encodingExceeds
    else if big < 0 then .ok (trimNegSignExt full) else .ok (trimNonNegSignExt full)

/-- `Eip712Converter::parse_int_to_min_be` (`eip712_high_level.rs`
lines 255–323). -/
def parse_int_to_min_be (value : Json) (size_bytes : Nat) : Except NumErr (List Nat) := do
  let big ← parse_int_value value
  int_min_be_encode big size_bytes

/-- The signed value denoted by a big-endian two's-complement byte string
(specification-side reading used to judge `parse_int_to_min_be`'s output). -/
def twosValue : List Nat → Int
  | [] => 0
  | b :: t =>
    if b &&& 0x80 = 0x80 then (beBytesToNat (b :: t) : Int) - 2 ^ (8 * (t.length + 1))
    else (beBytesToNat (b :: t) : Int)

/-- The encoding claimed by the specification for signed values: the
two's-complement representation modulo `2^bits`, at the field's declared
width, with redundant sign-extension bytes trimmed. -/
def specTwosComplMinBE (v : Int) (size_bytes : Nat) : List Nat :=
  let bits := 8 * size_bytes
  let asUint : Nat := (v % (2 ^ bits : Int)).toNat
  let digits := natToBEBytes asUint
  let full := List.replicate (size_bytes - digits.length) 0 ++ digits
  if v < 0 then trimNegSignExt full else trimNonNegSignExt full

/-- `Eip712FieldType` (`types.rs` lines 372–389): the EIP-712 field type
enumeration, sizes in bytes. -/
inductive Eip712FieldType where
  | custom (name : String)
  | int (size : Nat)
  | uint (size : Nat)
  | address
  | bool
  | string
  | fixedBytes (size : Nat)
  | dynamicBytes
deriving DecidableEq, Repr

/-- `Eip712FieldType::type_id` (`types.rs` lines 393–404). -/
def Eip712FieldType.type_id : Eip712FieldType → Nat
  | .custom _ => 0
  | .int _ => 1
  | .uint _ => 2
  | .address => 3
  | .bool => 4
  | .string => 5
  | .fixedBytes _ => 6
  | .dynamicBytes => 7

/-- `Eip712FieldType::type_size` (`types.rs` lines 407–414). -/
def Eip712FieldType.type_size : Eip712FieldType → Option Nat
  | .int size => some size
  | .uint size => some size
  | .fixedBytes size => some size
  | _ => none

/-- `Eip712FieldType::type_name` (`types.rs` lines 417–422). -/
def Eip712FieldType.type_name : Eip712FieldType → Option String
  | .custom name => some name
  | _ => none

/-- `Eip712ArrayLevel` (`types.rs` lines 427–432). -/
inductive Eip712ArrayLevel where
  | dynamic
  | fixed (size : Nat)
deriving DecidableEq, Repr

/-- `Eip712ArrayLevel::type_id` (`types.rs` lines 436–441). -/
def Eip712ArrayLevel.type_id : Eip712ArrayLevel → Nat
  | .dynamic => 0
  | .fixed _ => 1

/-- `Eip712ArrayLevel::size` (`types.rs` lines 444–449). -/
def Eip712ArrayLevel.size : Eip712ArrayLevel → Option Nat
  | .fixed size => some size
  | .dynamic => none

/-- `Eip712FieldDefinition` (`types.rs` lines 454–461). -/
structure Eip712FieldDefinition where
  field_type : Eip712FieldType
  name : String
  array_levels : List Eip712ArrayLevel
deriving DecidableEq, Repr

/-- `Eip712FieldDefinition::new` (`types.rs` lines 465–471): empty array
levels. -/
def Eip712FieldDefinition.new (field_type : Eip712FieldType) (name : String) :
    Eip712FieldDefinition :=
  { field_type := field_type, name := name, array_levels := [] }

/-- `Eip712FieldDefinition::is_array` (`types.rs` lines 480–482). -/
def Eip712FieldDefinition.is_array (f : Eip712FieldDefinition) : Bool :=
  !f.array_levels.isEmpty

/-- `Eip712StructDefinition` (`types.rs` lines 487–492). -/
structure Eip712StructDefinition where
  name : String
  fields : List Eip712FieldDefinition
deriving DecidableEq, Repr

/-- `Eip712FieldValue` (`types.rs` lines 518–521): a raw wire value. -/
structure Eip712FieldValue where
  value : List Nat
deriving DecidableEq, Repr

/-- `Eip712FieldValue::from_string` (`types.rs` lines 530–534). -/
def Eip712FieldValue.from_string (s : String) : Eip712FieldValue :=
  { value := strBytes s }

/-- `Eip712FieldValue::from_bool` (`types.rs` lines 551–555). -/
def Eip712FieldValue.from_bool (b : Bool) : Eip712FieldValue :=
  { value := [if b then 1 else 0] }

/-- `Eip712FieldValue::from_bytes` is `Eip712FieldValue.mk`; kept for
readability at call sites. -/
def Eip712FieldValue.from_bytes (bytes : List Nat) : Eip712FieldValue :=
  { value := bytes }

/-- `Eip712FieldValue::from_address_string` (`types.rs` lines 572–595):
strip an optional `0x`, require 40 hex characters, decode to 20 bytes. -/
def Eip712FieldValue.from_address_string (address : String) :
    Except String Eip712FieldValue :=
  let hexStr :=
    if startsWithChars ['0', 'x'] address.data then address.data.drop 2 else address.data
  if hexStr.length ≠ 40 then .error "Invalid address length"
  else
    match hexDecode hexStr with
    | none => .error "Invalid hex"
    | some bytes =>
      if bytes.length ≠ 20 then .error "Address must be 20 bytes"
      else .ok { value := bytes }

/-- `Eip712FieldValue::from_struct` (`types.rs` lines 598–600): struct
references contribute an empty value. -/
def Eip712FieldValue.from_struct : Eip712FieldValue := { value := [] }

/-- `Eip712StructImplementation` (`types.rs` lines 605–610). -/
structure Eip712StructImplementation where
  name : String
  values : List Eip712FieldValue
deriving DecidableEq, Repr

/-- `encode_field_definition`
(`commands/eip712/encoding/field_definition.rs` lines 9–51). The source
wraps the result in `Ok` unconditionally; the bare byte list is returned
here. `as u8` length casts are the explicit `% 256`. -/
def encode_field_definition (f : Eip712FieldDefinition) : List Nat :=
  let type_desc0 := f.field_type.type_id
  let type_desc1 := if f.is_array then type_desc0 ||| 0x80 else type_desc0
  let type_desc := if (f.field_type.type_size).isSome then type_desc1 ||| 0x40 else type_desc1
  [type_desc]
  ++ (match f.field_type.type_name with
      | some type_name => (strBytes type_name).length % 256 :: strBytes type_name
      | none => [])
  ++ (match f.field_type.type_size with
      | some type_size => [type_size]
      | none => [])
  ++ (if f.is_array then
        f.array_levels.length % 256 ::
          f.array_levels.flatMap (fun level =>
            level.type_id :: (match level.size with | some size => [size] | none => []))
      else [])
  ++ ((strBytes f.name).length % 256 :: strBytes f.name)

/-- The field-definition wire layout exactly as the specification words it:
a type-descriptor byte (base id, OR `0x80` for arrays, OR `0x40` when a
byte-width is carried), then `[custom-name length, name]` for custom types
only, then `[byte-width]` when the width bit is set, then for arrays the
level count and per level the level id plus a size byte when fixed, then
always `[field-name length, name]`. -/
def fieldDefSpecEncoding (f : Eip712FieldDefinition) : List Nat :=
  let baseId : Nat :=
    match f.field_type with
    | .custom _ => 0
    | .int _ => 1
    | .uint _ => 2
    | .address => 3
    | .bool => 4
    | .string => 5
    | .fixedBytes _ => 6
    | .dynamicBytes => 7
  let hasWidth :=
    match f.field_type with
    | .int _ | .uint _ | .fixedBytes _ => true
    | _ => false
  let descByte :=
    (baseId ||| (if f.array_levels.length > 0 then 0x80 else 0)) |||
      (if hasWidth then 0x40 else 0)
  let customPart :=
    match f.field_type with
    | .custom nm => (strBytes nm).length :: strBytes nm
    | _ => []
  let widthPart :=
    match f.field_type with
    | .int w | .uint w | .fixedBytes w => [w]
    | _ => []
  let arrayPart :=
    if f.array_levels.length > 0 then
      f.array_levels.length ::
        f.array_levels.flatMap (fun level =>
          match level with
          | .dynamic => [0]
          | .fixed k => [1, k])
    else []
  descByte :: customPart ++ widthPart ++ arrayPart
    ++ ((strBytes f.name).length :: strBytes f.name)

/-- `LedgerAppError` (`ledger-device-base/src/errors.rs`), restricted to the
variants produced by the embedded code. -/
inductive LedgerAppError where
  /-- `LedgerAppError::AppSpecific(code, description)` -/
  | appSpecific (code : Nat) (description : String)
  /-- `LedgerAppError::Unknown(code)` -/
  | unknown (code : Nat)
  /-- `LedgerAppError::NoSignature` -/
  | noSignature
  /-- `LedgerAppError::InvalidEmptyMessage` -/
  | invalidEmptyMessage
  /-- `LedgerAppError::InvalidMessageSize` -/
  | invalidMessageSize
  /-- `LedgerAppError::InvalidChunkPayloadType` -/
  | invalidChunkPayloadType
deriving DecidableEq, Repr

/-- `EthAppError` (`ledger-eth-app/src/errors.rs`), restricted to the
variants produced by the embedded code. -/
inductive EthAppError where
  /-- `EthAppError::Transport(e)` -/
  | transport (e : LedgerAppError)
  /-- `EthAppError::InvalidBip32Path(msg)` -/
  | invalidBip32Path (msg : String)
  /-- `EthAppError::UserRejected` -/
  | userRejected
  /-- `EthAppError::DeviceStatus { sw, description }` -/
  | deviceStatus (sw : Nat) (description : String)
  /-- `EthAppError::InvalidEip712Data(msg)` -/
  | invalidEip712Data (msg : String)
  /-- `EthAppError::InvalidSignature(msg)` -/
  | invalidSignature (msg : String)
  /-- `EthAppError::InvalidResponseData(msg)` -/
  | invalidResponseData (msg : String)
deriving DecidableEq, Repr

/-- `describe_eth_status` (`errors.rs` lines 141–163): the ETH app status
word description table, reproduced arm for arm (string contents included,
since a claim inspects them). -/
def describe_eth_status (sw : Nat) : String :=
  if sw = 0x6001 then "Mode check fail"
  else if sw = 0x6501 then "TransactionType not supported"
  else if sw = 0x6502 then "Output buffer too small for chainId conversion"
  else if sw = 0x6982 then "Security status not satisfied (Canceled by user)"
  else if sw = 0x6983 then "Wrong Data length"
  else if sw = 0x6984 then "Plugin not installed"
  else if sw = 0x6985 then "Condition not satisfied"
  else if sw = 0x6A00 then "Error without info"
  else if sw = 0x6A80 then "Invalid data"
  else if sw = 0x6A84 then "Insufficient memory"
  else if sw = 0x6A88 then "Data not found"
  else if sw = 0x6B00 then "Incorrect parameter P1 or P2"
  else if sw = 0x6D00 then "Incorrect parameter INS"
  else if sw = 0x6E00 then "Incorrect parameter CLA"
  else if sw = 0x9000 then "Normal ending of the command"
  else if sw = 0x911C then "Command code not supported (Ledger-PKI not yet available)"
  else if sw &&& 0xFF00 = 0x6800 then "Internal error (Please report)"
  else if sw &&& 0xFF00 = 0x6F00 then "Technical problem (Internal error, please report)"
  else "Unknown status"

/-- The status words with a dedicated `describe_eth_status` arm. -/
def listedStatusWords : List Nat :=
  [0x6001, 0x6501, 0x6502, 0x6982, 0x6983, 0x6984, 0x6985, 0x6A00, 0x6A80,
   0x6A84, 0x6A88, 0x6B00, 0x6D00, 0x6E00, 0x9000, 0x911C]

/-- `map_ledger_error` (`errors.rs` lines 121–138). -/
def map_ledger_error : LedgerAppError → EthAppError
  | .appSpecific sw d =>
    if sw = 0x6982 then .userRejected
    else
      let _ := d
      .deviceStatus sw (describe_eth_status sw)
  | .unknown sw =>
    if sw = 0x6982 then .userRejected
    else .deviceStatus sw (describe_eth_status sw)
  | e => .transport e

/-- An APDU answer: status word plus payload (the external `ledger-apdu`
crate carries these as trailing bytes of the raw answer). -/
structure APDUAnswer where
  sw : Nat
  data : List Nat
deriving DecidableEq, Repr

/-- The parts of the external `APDUErrorCode` enum that `src/` does not pin
down: which non-success status words the enum recognizes (`Ok(err)` versus
`Err(code)` out of `error_code()`), and their `description()` strings.
Modelled from the spec: only `NoError = 0x9000` is fixed (§3 "Status word
`0x9000` means success"); no claim depends on the rest. -/
structure ExtCodes where
  isKnown : Nat → Bool
  descr : Nat → String

/-- `AppExt::handle_response_error` (`ledger-device-base/src/lib.rs`
lines 103–111): `Ok` on `0x9000`, otherwise `AppSpecific` for enum-known
codes and `Unknown` for the rest. -/
def handle_response_error (ext : ExtCodes) (r : APDUAnswer) :
    Except LedgerAppError Unit :=
  if r.sw = 0x9000 then .ok ()
  else if ext.isKnown r.sw then .error (.appSpecific r.sw (ext.descr r.sw))
  else .error (.unknown r.sw)

/-- `AppExt::handle_response_error_signature` (`ledger-device-base/src/lib.rs`
lines 114–128): like `handle_response_error` but a successful status with an
empty payload is `NoSignature`, and unrecognized codes also surface as
`AppSpecific` (with a fixed description). -/
def handle_response_error_signature (ext : ExtCodes) (r : APDUAnswer) :
    Except LedgerAppError Unit :=
  if r.sw = 0x9000 then
    if r.data.isEmpty then .error .noSignature else .ok ()
  else if ext.isKnown r.sw then .error (.appSpecific r.sw (ext.descr r.sw))
  else .error (.appSpecific r.sw "[APDU_ERROR] Unknown")

/-- The composite status classification used by every EIP-712 command module
(e.g. `struct_definition/apdu.rs` lines 52–53): `handle_response_error`
followed by `map_ledger_error` on the error. `none` is success. -/
def classify_status (ext : ExtCodes) (sw : Nat) : Option EthAppError :=
  match handle_response_error ext { sw := sw, data := [] } with
  | .ok _ => none
  | .error e => some (map_ledger_error e)

/-- `Signature` (`types.rs` lines 110–117). -/
structure Signature where
  v : Nat
  r : List Nat
  s : List Nat
deriving DecidableEq, Repr

/-- `Signature::new` (`types.rs` lines 121–129): component length checks
(`SIGNATURE_COMPONENT_SIZE = 32`). -/
def Signature.new (v : Nat) (r s : List Nat) : Except String Signature :=
  if r.length ≠ 32 then .error "Invalid r length"
  else if s.length ≠ 32 then .error "Invalid s length"
  else .ok { v := v, r := r, s := s }

/-- `parse_signature_response` (`commands/eip712/signing/utils.rs`
lines 9–22): exactly 65 bytes, split as `v = data[0]`, `r = data[1..33]`,
`s = data[33..65]`. -/
def parse_signature_response (data : List Nat) : Except EthAppError Signature :=
  if data.length ≠ 65 then
    .error (.invalidResponseData "Invalid signature response length")
  else
    let v := data.headD 0
    let r := (data.drop 1).take 32
    let s := (data.drop 33).take 32
    (Signature.new v r s).mapError .invalidSignature

/-- An APDU command (`APDUCommand` of the transport layer): class,
instruction, two parameter bytes, payload. -/
structure APDUCommand where
  cla : Nat
  ins : Nat
  p1 : Nat
  p2 : Nat
  data : List Nat
deriving DecidableEq, Repr

/-- The device behind the `Exchange` trait, as an oracle answering the n-th
exchange of a flow. -/
def Device := Nat → APDUAnswer

/-- `ChunkPayloadType` (`ledger-device-base/src/lib.rs` lines 17–24):
`Init = 0x00`, `Add = 0x01`, `Last = 0x02`. -/
def chunkInit : Nat := 0x00

/-- `ChunkPayloadType::Add`. -/
def chunkAdd : Nat := 0x01

/-- `ChunkPayloadType::Last`. -/
def chunkLast : Nat := 0x02

/-- `USER_MESSAGE_CHUNK_SIZE` (`ledger-device-base/src/lib.rs` line 15). -/
def USER_MESSAGE_CHUNK_SIZE : Nat := 250

/-- Rust `slice::chunks(n)` (with fuel; `rustChunks` supplies enough):
groups of `n` elements in order, last group possibly shorter, empty slice
gives no groups. -/
def chunksGo (n : Nat) : Nat → List Nat → List (List Nat)
  | _, [] => []
  | 0, _ => []
  | fuel + 1, l => l.take n :: chunksGo n fuel (l.drop n)

/-- Rust `slice::chunks(n)` for `n > 0`. -/
def rustChunks (n : Nat) (l : List Nat) : List (List Nat) :=
  chunksGo n l.length l

/-- The error branch of `handle_response_error` as a value (used by the
chunk loop below, which stops at the first failing exchange). -/
def response_error_value (ext : ExtCodes) (r : APDUAnswer) : LedgerAppError :=
  if ext.isKnown r.sw then .appSpecific r.sw (ext.descr r.sw) else .unknown r.sw

/-- The chunk loop of `send_chunks` (`ledger-device-base/src/lib.rs`
lines 342–359): send each chunk at the next exchange index, `p1 = Add`
except `Last` for the final chunk, stopping at the first non-success
status. Returns the `(p1, data)` frames actually sent and the outcome
(the source keeps only the last response). -/
def send_chunks_loop (dev : Device) (ext : ExtCodes) (lastIdx : Nat) :
    Nat → APDUAnswer → List (List Nat) →
      List (Nat × List Nat) × Except LedgerAppError APDUAnswer
  | _, prev, [] => ([], .ok prev)
  | k, _, c :: rest =>
    let p1 := if k = lastIdx then chunkLast else chunkAdd
    let r := dev (k + 1)
    if r.sw = 0x9000 then
      let out := send_chunks_loop dev ext lastIdx (k + 1) r rest
      ((p1, c) :: out.1, out.2)
    else ([(p1, c)], .error (response_error_value ext r))

/-- `AppExt::send_chunks` (`ledger-device-base/src/lib.rs` lines 322–362):
empty-message and >255-frame rejection, the `p1 = Init` template check, the
initial exchange with the caller's template command itself, then the chunk
loop. Returns the `(p1, data)` frames actually sent — empty when the
function fails before any device I/O — and the outcome. -/
def send_chunks (dev : Device) (ext : ExtCodes) (command : APDUCommand)
    (message : List Nat) :
    List (Nat × List Nat) × Except LedgerAppError APDUAnswer :=
  let chunks := rustChunks USER_MESSAGE_CHUNK_SIZE message
  if chunks.length = 0 then ([], .error .invalidEmptyMessage)
  else if chunks.length > 255 then ([], .error .invalidMessageSize)
  else if command.p1 ≠ chunkInit then ([], .error .invalidChunkPayloadType)
  else
    let r0 := dev 0
    if r0.sw = 0x9000 then
      let out := send_chunks_loop dev ext (chunks.length - 1) 0 r0 chunks
      ((command.p1, command.data) :: out.1, out.2)
    else ([(command.p1, command.data)], .error (response_error_value ext r0))

/-- `BipPath` (`types.rs` lines 10–13): u32 derivation indices. -/
structure BipPath where
  indices : List Nat
deriving DecidableEq, Repr

/-- A u32 in big-endian bytes (`u32::to_be_bytes`). -/
def u32be (n : Nat) : List Nat :=
  [n / 2 ^ 24 % 256, n / 2 ^ 16 % 256, n / 2 ^ 8 % 256, n % 256]

/-- A u16 in big-endian bytes (`u16::to_be_bytes`), with the `as u16`
truncation of the source made explicit. -/
def u16beOfLen (n : Nat) : List Nat :=
  [n % 65536 / 256, n % 256]

/-- `encode_bip32_path` (`utils.rs` lines 10–22): count byte then 4-byte
big-endian indices. -/
def encode_bip32_path (path : BipPath) : List Nat :=
  path.indices.length % 256 :: path.indices.flatMap u32be

/-- `validate_bip32_path` (`utils.rs` lines 69–97): non-empty, at most 10
levels, and for the standard `m/44'/60'/…` prefix a hardened account
index. -/
def validate_bip32_path (path : BipPath) : Except EthAppError Unit :=
  if path.indices.isEmpty then .error (.invalidBip32Path "Empty path")
  else if path.indices.length > 10 then .error (.invalidBip32Path "Path too deep")
  else
    match path.indices with
    | i0 :: i1 :: i2 :: _ =>
      if i0 = 0x8000002C ∧ i1 = 0x8000003C then
        if i2 &&& 0x80000000 = 0 then
          .error (.invalidBip32Path "Account index should be hardened for Ethereum")
        else .ok ()
      else .ok ()
    | _ => .ok ()

/-- Rust `uN::from_str` (used as `str::parse::<u8>` / `::<u16>`): optional
leading `+`, one or more decimal digits, value within the type's range. -/
def parseRustUInt (maxVal : Nat) (l : List Char) : Option Nat :=
  match parseBigUintDec l with
  | some v => if v ≤ maxVal then some v else none
  | none => none

/-- Rust `str::rsplit_once(sep)` on characters: split at the last
occurrence of `sep`, both sides without it. -/
def rsplitOnceChar (sep : Char) : List Char → Option (List Char × List Char)
  | [] => none
  | c :: t =>
    match rsplitOnceChar sep t with
    | some (b, a) => some (c :: b, a)
    | none => if c = sep then some ([], t) else none

/-- Rust `str::trim_end_matches(c)`: drop every trailing `c`. -/
def trimEndMatches (c : Char) (l : List Char) : List Char :=
  (l.reverse.dropWhile (· = c)).reverse

/-- `Eip712Converter::parse_base_field_type` (`eip712_high_level.rs`
lines 77–120): the Solidity type-string parser for non-array types. -/
def parse_base_field_type (t : List Char) : Except String Eip712FieldType :=
  if t = "bool".data then .ok .bool
  else if t = "address".data then .ok .address
  else if t = "string".data then .ok .string
  else if t = "bytes".data then .ok .dynamicBytes
  else if startsWithChars "bytes".data t then
    match parseRustUInt 255 (t.drop 5) with
    | some size =>
      if 0 < size ∧ size ≤ 32 then .ok (.fixedBytes size)
      else .error "Invalid bytes size"
    | none => .error "Invalid bytes size"
  else if startsWithChars "uint".data t then
    match parseRustUInt 65535 (t.drop 4) with
    | some size =>
      if 0 < size ∧ size ≤ 256 ∧ size % 8 = 0 then .ok (.uint (size / 8))
      else .error "Invalid uint size"
    | none => .error "Invalid uint size"
  else if startsWithChars "int".data t then
    match parseRustUInt 65535 (t.drop 3) with
    | some size =>
      if 0 < size ∧ size ≤ 256 ∧ size % 8 = 0 then .ok (.int (size / 8))
      else .error "Invalid int size"
    | none => .error "Invalid int size"
  else .ok (.custom (String.mk t))

/-- `Eip712Converter::parse_field_type` (`eip712_high_level.rs`
lines 50–74): trim, peel one `[…]` suffix (whose well-formedness is checked
but whose level is then discarded by the source), and parse the base
type. -/
def parse_field_type (type_str : String) : Except String Eip712FieldType :=
  let t := trimChars type_str.data
  if t.getLast? = some ']' then
    match rsplitOnceChar '[' t with
    | none => .error "Invalid array type format"
    | some (base_type, array_spec0) =>
      let array_spec := trimEndMatches ']' array_spec0
      if array_spec.isEmpty then parse_base_field_type base_type
      else
        match parseRustUInt 255 array_spec with
        | some _ => parse_base_field_type base_type
        | none => .error "Invalid array size"
  else parse_base_field_type t

/-- A `{name, type}` pair of the JSON type table. The struct itself is
declared outside `src/`; its two fields are those the high-level converter
reads (`field.name`, `field.r#type`). -/
structure Eip712Field where
  name : String
  type : String
deriving DecidableEq, Repr

/-- A named struct of the JSON type table (declared outside `src/`; the
converter reads its ordered `fields`). -/
structure Eip712Struct where
  fields : List Eip712Field
deriving DecidableEq, Repr

/-- The type table. The source's map type is declared outside `src/`; an
association list preserves the only structure the embedded code uses
(ordered iteration — made irrelevant by the alphabetical sort of the flow —
and key lookup). -/
abbrev Eip712Types := List (String × Eip712Struct)

/-- The EIP-712 domain (declared outside `src/`; fields per spec §3:
optional name, version, chain id, verifying contract, salt). -/
structure Eip712Domain where
  name : Option String
  version : Option String
  chain_id : Option Nat
  verifying_contract : Option String
  salt : Option (List Nat)
deriving DecidableEq, Repr

/-- The typed-data document (declared outside `src/`; fields per spec §3 and
their uses in `eip712_high_level.rs`). -/
structure Eip712TypedData where
  domain : Eip712Domain
  types : Eip712Types
  primary_type : String
  message : Json

/-- The distinct `format!` messages of `NumErr`, as the strings the
surrounding `String`-error code receives. -/
def NumErr.msg : NumErr → String
  | .invalidHex => "Invalid hex"
  | .invalidDecimal => "Invalid decimal string"
  | .expectedNumeric => "Expected number or numeric string"
  | .outOfRange => "value out of range"
  | .encodingExceeds => "minimal encoding exceeds size"

/-- `Eip712Converter::convert_value_to_field_value` (`eip712_high_level.rs`
lines 149–204). -/
def convert_value_to_field_value (value : Json) (field_type : Eip712FieldType) :
    Except String Eip712FieldValue :=
  match field_type with
  | .bool =>
    match value.as_bool with
    | some b => .ok (Eip712FieldValue.from_bool b)
    | none => .error "Expected boolean value"
  | .address =>
    match value.as_str with
    | some s => Eip712FieldValue.from_address_string s
    | none => .error "Expected string value for address"
  | .string =>
    match value.as_str with
    | some s => .ok (Eip712FieldValue.from_string s)
    | none => .error "Expected string value"
  | .uint size =>
    (parse_uint_to_min_be value size).map Eip712FieldValue.from_bytes
      |>.mapError NumErr.msg
  | .int size =>
    (parse_int_to_min_be value size).map Eip712FieldValue.from_bytes
      |>.mapError NumErr.msg
  | .fixedBytes size =>
    match value.as_str with
    | some s =>
      match hexDecode (trimStartMatches0x s.data) with
      | some bytes =>
        if bytes.length ≠ size then .error "Wrong byte count"
        else .ok (Eip712FieldValue.from_bytes bytes)
      | none => .error "Invalid hex string"
    | none => .error "Expected hex string for bytes"
  | .dynamicBytes =>
    match value.as_str with
    | some s =>
      match hexDecode (trimStartMatches0x s.data) with
      | some bytes => .ok (Eip712FieldValue.from_bytes bytes)
      | none => .error "Invalid hex string"
    | none => .error "Expected hex string for bytes"
  | .custom _ => .ok Eip712FieldValue.from_struct

/-- `Eip712Converter::convert_types_to_definitions` (`eip712_high_level.rs`
lines 123–146). -/
def convert_types_to_definitions (types : Eip712Types) :
    Except String (List Eip712StructDefinition) :=
  types.mapM (fun nameAndStruct => do
    let fields ← nameAndStruct.2.fields.mapM (fun field => do
      let field_type ← parse_field_type field.type
      pure (Eip712FieldDefinition.new field_type field.name))
    pure { name := nameAndStruct.1, fields := fields })

/-- `Eip712Converter::convert_message_to_implementation`
(`eip712_high_level.rs` lines 326–351). -/
def convert_message_to_implementation (message : Json) (primary_type : String)
    (types : Eip712Types) : Except String Eip712StructImplementation := do
  match types.lookup primary_type with
  | none => .error "Primary type not found in types"
  | some struct_def => do
    let values ← struct_def.fields.mapM (fun field => do
      match message.get field.name with
      | none => .error "Field not found in message"
      | some field_value => do
        let field_type ← parse_field_type field.type
        convert_value_to_field_value field_value field_type)
    pure { name := primary_type, values := values }

/-- Stable insertion into a sorted list: the new element goes after every
strictly smaller existing element and before equal ones. -/
def insertIntoSorted (le : Eip712StructDefinition → Eip712StructDefinition → Bool)
    (a : Eip712StructDefinition) :
    List Eip712StructDefinition → List Eip712StructDefinition
  | [] => [a]
  | b :: t => if le b a && !(le a b) then b :: insertIntoSorted le a t else a :: b :: t

/-- Rust `sort_by` with an `Ord`-comparator is a stable sort; this
structural stable insertion sort produces the identical list (a stable sort
of a totally preordered list is unique). -/
def stableSortBy (le : Eip712StructDefinition → Eip712StructDefinition → Bool) :
    List Eip712StructDefinition → List Eip712StructDefinition
  | [] => []
  | a :: t => insertIntoSorted le a (stableSortBy le t)

/-- One device exchange of the EIP-712 flow, by kind and payload. Each
constructor stands for an `APDUCommand` with `cla = 0xE0` and the
instruction of `instructions.rs` (`0x1A` struct definition, `0x1C` struct
implementation, `0x0C` signing); the `p1`/`p2` marker constants
(`p2_eip712_struct_def`, `p1/p2_eip712_struct_impl`, `p1/p2_sign_eip712`)
are declared outside `src/`, so the marker is carried symbolically — no
claim depends on the byte values. -/
inductive Exch where
  /-- Struct-definition name exchange (`p2 = STRUCT_NAME`). -/
  | structDefName (name : List Nat)
  /-- Struct-definition field exchange (`p2 = STRUCT_FIELD`). -/
  | structDefField (payload : List Nat)
  /-- Struct-implementation root-struct exchange
  (`p1 = COMPLETE_SEND`, `p2 = ROOT_STRUCT`). -/
  | implRootStruct (name : List Nat)
  /-- Struct-implementation value chunk
  (`p1 = COMPLETE_SEND` when `complete`, else `PARTIAL_SEND`;
  `p2 = STRUCT_FIELD`). -/
  | implStructField (complete : Bool) (chunk : List Nat)
  /-- The final signing exchange
  (`ins = SIGN_ETH_EIP712`, `p1 = FIRST_CHUNK`, `p2 = FULL_IMPLEMENTATION`). -/
  | signEip712Full (pathData : List Nat)
deriving DecidableEq, Repr

/-- `APDU_MAX_PAYLOAD` (`commands/eip712/encoding/utils.rs`). -/
def APDU_MAX_PAYLOAD : Nat := 255

/-- The exchanges of `send_struct_definition`
(`commands/eip712/struct_definition/apdu.rs` lines 35–77): the struct name,
then one exchange per encoded field definition. -/
def send_struct_definition_exchs (struct_def : Eip712StructDefinition) : List Exch :=
  .structDefName (strBytes struct_def.name) ::
    struct_def.fields.map (fun field => .structDefField (encode_field_definition field))

/-- The exchanges of `send_struct_implementation`
(`commands/eip712/struct_implementation/apdu.rs` lines 38–99): the root
struct name, then per value the 2-byte big-endian length prefix plus value,
split into `APDU_MAX_PAYLOAD` frames, all `PARTIAL_SEND` but the last
(`COMPLETE_SEND`). -/
def send_struct_implementation_exchs (struct_impl : Eip712StructImplementation) :
    List Exch :=
  .implRootStruct (strBytes struct_impl.name) ::
    struct_impl.values.flatMap (fun v =>
      let buffer := u16beOfLen v.value.length ++ v.value
      let cs := rustChunks APDU_MAX_PAYLOAD buffer
      cs.enum.map (fun ci => .implStructField (ci.1 = cs.length - 1) ci.2))

/-- The exchange of `sign_eip712_full` (`commands/eip712/signing/full.rs`
lines 33–57): path validation then a single signing exchange carrying the
encoded BIP32 path. -/
def sign_eip712_full_exchs (path : BipPath) : Except EthAppError (List Exch) := do
  let _ ← validate_bip32_path path
  pure [.signEip712Full (encode_bip32_path path)]

/-- The canonical-order domain values built by `sign_eip712_typed_data`
(`eip712_high_level.rs` lines 552–580): name, version, chainId (minimal
big-endian uint256 of the u64), verifyingContract, each when present. -/
def domain_values (d : Eip712Domain) : Except EthAppError (List Eip712FieldValue) := do
  let nameVals :=
    match d.name with
    | some n => [Eip712FieldValue.from_string n]
    | none => []
  let versionVals :=
    match d.version with
    | some v => [Eip712FieldValue.from_string v]
    | none => []
  let chainVals ←
    match d.chain_id with
    | some chain_id =>
      match parse_uint_to_min_be (.num chain_id) 32 with
      | .ok bytes => pure [Eip712FieldValue.from_bytes bytes]
      | .error e => .error (.invalidEip712Data e.msg)
    | none => pure []
  let contractVals ←
    match d.verifying_contract with
    | some addr =>
      match Eip712FieldValue.from_address_string addr with
      | .ok v => pure [v]
      | .error e => .error (.invalidEip712Data e)
    | none => pure []
  pure (nameVals ++ versionVals ++ chainVals ++ contractVals)

/-- The exchange sequence of `sign_eip712_typed_data` (`eip712_high_level.rs`
lines 531–597): validate the path, convert the type table, send every
struct definition in alphabetical name order, send the canonical
`EIP712Domain` implementation when that type is declared, send the message
implementation, and sign. The source interleaves the conversions with the
sends; this embedding computes the full planned sequence (identical
whenever every conversion succeeds, as in the claims below, which pair it
with `run_exchs` for the abort behaviour). -/
def sign_eip712_typed_data_exchs (path : BipPath) (typed_data : Eip712TypedData) :
    Except EthAppError (List Exch) := do
  let _ ← validate_bip32_path path
  let struct_definitions ←
    (convert_types_to_definitions typed_data.types).mapError .invalidEip712Data
  let defs_sorted :=
    stableSortBy (fun a b => bytesLe (strBytes a.name) (strBytes b.name)) struct_definitions
  let defExchs := defs_sorted.flatMap send_struct_definition_exchs
  let domainExchs ←
    if (typed_data.types.lookup "EIP712Domain").isSome then do
      let vals ← domain_values typed_data.domain
      pure (send_struct_implementation_exchs { name := "EIP712Domain", values := vals })
    else pure []
  let struct_implementation ←
    (convert_message_to_implementation typed_data.message typed_data.primary_type
        typed_data.types).mapError .invalidEip712Data
  let msgExchs := send_struct_implementation_exchs struct_implementation
  let signExchs ← sign_eip712_full_exchs path
  pure (defExchs ++ domainExchs ++ msgExchs ++ signExchs)

/-- Run a planned exchange sequence against the device: each exchange's
status must be success (`0x9000`, checked by `handle_response_error` after
every exchange in the source) before the next is attempted; the first
non-success aborts the remainder. Returns the exchanges attempted, the next
exchange index, and whether all succeeded. -/
def run_exchs (dev : Device) : List Exch → Nat → List Exch × Nat × Bool
  | [], k => ([], k, true)
  | e :: rest, k =>
    if (dev k).sw = 0x9000 then
      let out := run_exchs dev rest (k + 1)
      (e :: out.1, out.2.1, out.2.2)
    else ([e], k + 1, false)

/-- Decidable equality for `Except` results (components decidable). -/
instance {ε α : Type} [DecidableEq ε] [DecidableEq α] : DecidableEq (Except ε α) :=
  fun a b =>
    match a, b with
    | .ok x, .ok y =>
      if h : x = y then .isTrue (by rw [h]) else .isFalse (by simp [h])
    | .error x, .error y =>
      if h : x = y then .isTrue (by rw [h]) else .isFalse (by simp [h])
    | .ok _, .error _ => .isFalse (by simp)
    | .error _, .ok _ => .isFalse (by simp)

/-- The 20-byte verifying-contract address of the end-to-end scenario. -/
def scenarioAddress : String := "0x0102030405060708090a0b0c0d0e0f1011121314"

/-- The raw bytes of `scenarioAddress`. -/
def scenarioAddressBytes : List Nat :=
  [0x01, 0x02, 0x03, 0x04, 0x05, 0x06, 0x07, 0x08, 0x09, 0x0a,
   0x0b, 0x0c, 0x0d, 0x0e, 0x0f, 0x10, 0x11, 0x12, 0x13, 0x14]

/-- The scenario domain `{name:"T", version:"1", chainId:1,
verifyingContract:<20 bytes>}` of the end-to-end claim. -/
def scenarioDomain : Eip712Domain :=
  { name := some "T", version := some "1", chain_id := some 1,
    verifying_contract := some scenarioAddress, salt := none }

/-- The scenario type table: the explicit `EIP712Domain` entry plus a single
custom type `Mail` with one `address` field. -/
def scenarioTypes : Eip712Types :=
  [("EIP712Domain",
    { fields := [{ name := "name", type := "string" },
                 { name := "version", type := "string" },
                 { name := "chainId", type := "uint256" },
                 { name := "verifyingContract", type := "address" }] }),
   ("Mail", { fields := [{ name := "to", type := "address" }] })]

/-- The scenario message: the single `address` field of `Mail`. -/
def scenarioMessage : Json := .obj [("to", .str scenarioAddress)]

/-- The scenario typed-data document. -/
def scenarioTypedData : Eip712TypedData :=
  { domain := scenarioDomain, types := scenarioTypes,
    primary_type := "Mail", message := scenarioMessage }

/-- The scenario signing path `m/44'/60'/0'/0/0`. -/
def scenarioPath : BipPath :=
  { indices := [0x8000002C, 0x8000003C, 0x80000000, 0, 0] }

/-- The fifteen exchanges the high-level flow performs on the scenario
document, in order: the domain type name, its four field definitions in
declared order, the message type name, its one field definition, the domain
root struct, its four values, the message root struct, its one value, and
the signing exchange. -/
def scenarioExchList : List Exch :=
  [.structDefName (strBytes "EIP712Domain"),
   .structDefField (5 :: 4 :: strBytes "name"),
   .structDefField (5 :: 7 :: strBytes "version"),
   .structDefField (0x42 :: 32 :: 7 :: strBytes "chainId"),
   .structDefField (3 :: 17 :: strBytes "verifyingContract"),
   .structDefName (strBytes "Mail"),
   .structDefField (3 :: 2 :: strBytes "to"),
   .implRootStruct (strBytes "EIP712Domain"),
   .implStructField true (0 :: 1 :: strBytes "T"),
   .implStructField true (0 :: 1 :: strBytes "1"),
   .implStructField true [0, 1, 1],
   .implStructField true (0 :: 20 :: scenarioAddressBytes),
   .implRootStruct (strBytes "Mail"),
   .implStructField true (0 :: 20 :: scenarioAddressBytes),
   .signEip712Full
     [5, 0x80, 0, 0, 0x2C, 0x80, 0, 0, 0x3C, 0x80, 0, 0, 0, 0, 0, 0, 0, 0, 0, 0, 0]]

/-- A concrete external-code oracle for witness instantiations. -/
def extEx : ExtCodes := { isKnown := fun _ => false, descr := fun _ => "" }

/-- A device that answers every exchange with success and an empty payload. -/
def devAllSuccess : Device := fun _ => { sw := 0x9000, data := [] }

/-- A concrete field definition (custom type, two array levels) for witness
instantiations. -/
def fieldDefEx : Eip712FieldDefinition :=
  { field_type := .custom "Mail", name := "to",
    array_levels := [.dynamic, .fixed 3] }

/-- The `(p1, body)` frames the chunk loop produces when every exchange
succeeds: `Add` everywhere except the `lastIdx`-th position, which is
`Last`. -/
def tagChunks (lastIdx : Nat) (k : Nat) : List (List Nat) → List (Nat × List Nat)
  | [] => []
  | c :: rest =>
    (if k = lastIdx then chunkLast else chunkAdd, c) :: tagChunks lastIdx (k + 1) rest

/-!
## Theorems

First the supporting lemmas about the byte-level primitives, then one
theorem per claim (witnesses and counterexamples alongside).
-/

/-- The worker ignores its value at zero. -/
theorem natToBEBytesGo_zero (fuel : Nat) : natToBEBytesGo fuel 0 = [] := by
  cases fuel <;> simp [natToBEBytesGo]

/-- The worker is fuel-irrelevant above the value. -/
theorem natToBEBytesGo_irrel (n : Nat) : ∀ f1 f2 : Nat, n ≤ f1 → n ≤ f2 →
    natToBEBytesGo f1 n = natToBEBytesGo f2 n := by
  induction n using Nat.strong_induction_on with
  | _ n ih =>
    intro f1 f2 h1 h2
    by_cases h0 : n = 0
    · subst h0
      rw [natToBEBytesGo_zero, natToBEBytesGo_zero]
    · obtain ⟨g1, rfl⟩ : ∃ g1, f1 = g1 + 1 := ⟨f1 - 1, by omega⟩
      obtain ⟨g2, rfl⟩ : ∃ g2, f2 = g2 + 1 := ⟨f2 - 1, by omega⟩
      have hdivlt : n / 256 < n := Nat.div_lt_self (Nat.pos_of_ne_zero h0) (by norm_num)
      simp only [natToBEBytesGo, if_neg h0]
      rw [ih (n / 256) hdivlt g1 g2 (by omega) (by omega)]

/-- `natToBEBytes` at zero. -/
theorem natToBEBytes_zero : natToBEBytes 0 = [] := rfl

/-- `natToBEBytes` unfolding for nonzero input. -/
theorem natToBEBytes_pos {n : Nat} (h : n ≠ 0) :
    natToBEBytes n = natToBEBytes (n / 256) ++ [n % 256] := by
  obtain ⟨m, rfl⟩ : ∃ m, n = m + 1 := ⟨n - 1, by omega⟩
  show natToBEBytesGo (m + 1) (m + 1) = _
  simp only [natToBEBytesGo, if_neg h]
  have hdivlt : (m + 1) / 256 < m + 1 := Nat.div_lt_self (by omega) (by norm_num)
  rw [natToBEBytesGo_irrel ((m + 1) / 256) m ((m + 1) / 256) (by omega) (by omega)]
  rfl

/-- `List.foldl` characterization of `beBytesToNat` with an accumulator. -/
theorem beBytesToNat_go (l : List Nat) (acc : Nat) :
    l.foldl (fun a b => a * 256 + b) acc = acc * 256 ^ l.length + beBytesToNat l := by
  induction l generalizing acc with
  | nil => simp [beBytesToNat]
  | cons b t ih =>
    show t.foldl _ (acc * 256 + b) = _
    rw [ih (acc * 256 + b)]
    have hb : beBytesToNat (b :: t) = b * 256 ^ t.length + beBytesToNat t := by
      show t.foldl _ (0 * 256 + b) = _
      rw [ih (0 * 256 + b)]
      ring_nf
    rw [hb]
    simp [List.length_cons, pow_succ]
    ring

/-- `beBytesToNat` over concatenation. -/
theorem beBytesToNat_append (l1 l2 : List Nat) :
    beBytesToNat (l1 ++ l2) = beBytesToNat l1 * 256 ^ l2.length + beBytesToNat l2 := by
  show (l1 ++ l2).foldl _ 0 = _
  rw [List.foldl_append, beBytesToNat_go]
  rfl

/-- `beBytesToNat` of a cons. -/
theorem beBytesToNat_cons (b : Nat) (t : List Nat) :
    beBytesToNat (b :: t) = b * 256 ^ t.length + beBytesToNat t := by
  show t.foldl _ (0 * 256 + b) = _
  rw [beBytesToNat_go]
  ring_nf

/-- Round trip: the minimal big-endian bytes of `n` denote `n`. -/
theorem beBytesToNat_natToBEBytes (n : Nat) : beBytesToNat (natToBEBytes n) = n := by
  induction n using Nat.strong_induction_on with
  | _ n ih =>
    by_cases h : n = 0
    · subst h
      simp [natToBEBytes_zero, beBytesToNat]
    · rw [natToBEBytes_pos h, beBytesToNat_append,
        ih (n / 256) (Nat.div_lt_self (Nat.pos_of_ne_zero h) (by norm_num))]
      have h1 : beBytesToNat [n % 256] = n % 256 := by
        simp [beBytesToNat]
      rw [h1]
      simp
      omega

/-- `natToBEBytes` needs at most `k` bytes below `256^k`. -/
theorem natToBEBytes_length_le {n k : Nat} (h : n < 256 ^ k) :
    (natToBEBytes n).length ≤ k := by
  induction n using Nat.strong_induction_on generalizing k with
  | _ n ih =>
    by_cases h0 : n = 0
    · subst h0
      simp [natToBEBytes_zero]
    · rw [natToBEBytes_pos h0]
      cases k with
      | zero =>
        simp at h
        omega
      | succ k' =>
        have hlt : n / 256 < 256 ^ k' := by
          rw [pow_succ] at h
          exact Nat.div_lt_of_lt_mul (by omega)
        have := ih (n / 256) (Nat.div_lt_self (Nat.pos_of_ne_zero h0) (by norm_num)) hlt
        simp [List.length_append]
        omega

/-- Converse: `n` fits below `256^k` when its bytes fit in `k`. -/
theorem lt_of_natToBEBytes_length_le {n k : Nat}
    (h : (natToBEBytes n).length ≤ k) : n < 256 ^ k := by
  induction n using Nat.strong_induction_on generalizing k with
  | _ n ih =>
    by_cases h0 : n = 0
    · subst h0
      exact Nat.pos_pow_of_pos k (by norm_num)
    · rw [natToBEBytes_pos h0] at h
      simp [List.length_append] at h
      cases k with
      | zero => omega
      | succ k' =>
        have h1 : n / 256 < 256 ^ k' :=
          ih (n / 256) (Nat.div_lt_self (Nat.pos_of_ne_zero h0) (by norm_num)) (by omega)
        have hmul : 256 * (n / 256 + 1) ≤ 256 * 256 ^ k' :=
          Nat.mul_le_mul_left _ (Nat.succ_le_of_lt h1)
        have hmod : n % 256 < 256 := Nat.mod_lt _ (by norm_num)
        have hsplit : 256 * (n / 256) + n % 256 = n := Nat.div_add_mod n 256
        rw [pow_succ]
        omega

/-- The leading byte of a nonzero value's minimal encoding is nonzero. -/
theorem natToBEBytes_head (n : Nat) (h : n ≠ 0) :
    ∃ b t, natToBEBytes n = b :: t ∧ b ≠ 0 := by
  induction n using Nat.strong_induction_on with
  | _ n ih =>
    by_cases hs : n < 256
    · have hdiv : n / 256 = 0 := Nat.div_eq_of_lt hs
      refine ⟨n % 256, [], ?_, ?_⟩
      · rw [natToBEBytes_pos h, hdiv, natToBEBytes_zero]
        rfl
      · rw [Nat.mod_eq_of_lt hs]
        exact h
    · have hdiv : n / 256 ≠ 0 := by
        have : 256 ≤ n := le_of_not_lt hs
        have := Nat.one_le_div_iff (by norm_num : 0 < 256) |>.mpr this
        omega
      obtain ⟨b, t, heq, hb⟩ :=
        ih (n / 256) (Nat.div_lt_self (Nat.pos_of_ne_zero h) (by norm_num)) hdiv
      exact ⟨b, t ++ [n % 256], by rw [natToBEBytes_pos h, heq]; rfl, hb⟩

/-- Every byte of a minimal encoding is a byte. -/
theorem natToBEBytes_mem_lt {n b : Nat} (hb : b ∈ natToBEBytes n) : b < 256 := by
  induction n using Nat.strong_induction_on with
  | _ n ih =>
    by_cases h0 : n = 0
    · subst h0
      rw [natToBEBytes_zero] at hb
      simp at hb
    · rw [natToBEBytes_pos h0] at hb
      rcases List.mem_append.mp hb with h | h
      · exact ih (n / 256) (Nat.div_lt_self (Nat.pos_of_ne_zero h0) (by norm_num)) h
      · simp at h
        subst h
        exact Nat.mod_lt _ (by norm_num)

/-- A byte string denotes a value below `256 ^ length`. -/
theorem beBytesToNat_lt {l : List Nat} (h : ∀ b ∈ l, b < 256) :
    beBytesToNat l < 256 ^ l.length := by
  induction l with
  | nil =>
    simp [beBytesToNat]
  | cons b t ih =>
    have hb : b < 256 := h b (by simp)
    have ht : beBytesToNat t < 256 ^ t.length := ih (fun x hx => h x (by simp [hx]))
    rw [beBytesToNat_cons]
    calc b * 256 ^ t.length + beBytesToNat t
        < b * 256 ^ t.length + 256 ^ t.length := by omega
      _ = (b + 1) * 256 ^ t.length := by ring
      _ ≤ 256 * 256 ^ t.length := Nat.mul_le_mul_right _ (by omega)
      _ = 256 ^ (b :: t).length := by
          simp [List.length_cons, pow_succ]
          ring

/-- The leading-zero trim is the identity on a nonzero head. -/
theorem trimLeadZeros_cons_ne {b : Nat} (hb : b ≠ 0) (t : List Nat) :
    trimLeadZeros (b :: t) = b :: t := by
  cases b with
  | zero => exact absurd rfl hb
  | succ m =>
    cases t <;> rfl

/-- Trimming never lengthens. -/
theorem trimLeadZeros_length_le (l : List Nat) : (trimLeadZeros l).length ≤ l.length := by
  induction l using trimLeadZeros.induct with
  | case1 b t ih =>
    rw [trimLeadZeros]
    simpa using Nat.le_succ_of_le ih
  | case2 l h =>
    cases l with
    | nil => simp [trimLeadZeros]
    | cons b t =>
      cases b with
      | zero =>
        cases t with
        | nil => simp [trimLeadZeros]
        | cons c u => exact (h c u rfl).elim
      | succ m =>
        rw [trimLeadZeros_cons_ne (by omega)]

/-- Reduction of `parse_uint_to_min_be` on a successful parse. -/
theorem parse_uint_to_min_be_ok {value : Json} {v : Nat}
    (hok : parse_uint_value value = .ok v) (w : Nat) :
    parse_uint_to_min_be value w = uint_min_be_encode v w := by
  unfold parse_uint_to_min_be
  rw [hok]
  rfl

/-- Reduction of `parse_uint_to_min_be` on a failed parse. -/
theorem parse_uint_to_min_be_err {value : Json} {e : NumErr}
    (herr : parse_uint_value value = .error e) (w : Nat) :
    parse_uint_to_min_be value w = .error e := by
  unfold parse_uint_to_min_be
  rw [herr]
  rfl

/-- The out-of-range branch of the unsigned encoder. -/
theorem uint_min_be_encode_oor {v w : Nat} (hge : 2 ^ (8 * w) ≤ v) :
    uint_min_be_encode v w = .error .outOfRange := by
  unfold uint_min_be_encode
  rw [if_pos hge]

/-- The zero branch of the unsigned encoder. -/
theorem uint_min_be_encode_zero (w : Nat) : uint_min_be_encode 0 w = .ok [0] := by
  have h : 0 < 2 ^ (8 * w) := Nat.pos_pow_of_pos _ (by norm_num)
  unfold uint_min_be_encode
  rw [if_neg (by omega), if_pos rfl]

/-- For a nonzero in-range value the unsigned encoder returns the minimal
big-endian bytes. -/
theorem uint_min_be_encode_pos {v w : Nat} (hpos : 0 < v) (hlt : v < 2 ^ (8 * w)) :
    uint_min_be_encode v w = .ok (natToBEBytes v) := by
  have hpow : (2 : Nat) ^ (8 * w) = 256 ^ w := by
    rw [Nat.pow_mul]
  have hne : v ≠ 0 := by omega
  obtain ⟨b, t, heq, hb⟩ := natToBEBytes_head v hne
  have htrim : trimLeadZeros (natToBEBytes v) = natToBEBytes v := by
    rw [heq]
    exact trimLeadZeros_cons_ne hb t
  have hlen : (natToBEBytes v).length ≤ w := natToBEBytes_length_le (by omega)
  unfold uint_min_be_encode
  rw [if_neg (by omega), if_neg hne]
  simp only [htrim]
  rw [if_neg (by omega)]

/-- The parse front end of the unsigned converter never reports the
encoding-exceeds error. -/
theorem parse_uint_value_no_exceeds (value : Json) :
    parse_uint_value value ≠ .error .encodingExceeds := by
  unfold parse_uint_value
  split
  · simp
  · split
    · dsimp only
      split
      · split <;> simp
      · split <;> simp
    · simp

/-- The unsigned encoder back end never reports the encoding-exceeds
error. -/
theorem uint_min_be_encode_no_exceeds (v w : Nat) :
    uint_min_be_encode v w ≠ .error .encodingExceeds := by
  by_cases h1 : 2 ^ (8 * w) ≤ v
  · rw [uint_min_be_encode_oor h1]
    simp
  · by_cases h0 : v = 0
    · subst h0
      rw [uint_min_be_encode_zero]
      simp
    · rw [uint_min_be_encode_pos (by omega) (by omega)]
      simp

/-- C4: for every accepted numeric input of `parse_uint_to_min_be`, values
`≥ 2^bits` are rejected with the range error; the value `0` encodes to
exactly `[0x00]`; every nonzero in-range value encodes to its shortest
big-endian byte string with no leading zero byte (it round-trips and no
byte string denotes the value in fewer bytes); and at one byte of width or
more, `2^bits − 1` encodes to exactly `bits/8` bytes. -/
theorem parse_uint_min_be_spec :
    (∀ (value : Json) (w v : Nat), parse_uint_value value = .ok v →
        2 ^ (8 * w) ≤ v → parse_uint_to_min_be value w = .error .outOfRange)
    ∧ (∀ (value : Json) (w : Nat), parse_uint_value value = .ok 0 →
        parse_uint_to_min_be value w = .ok [0])
    ∧ (∀ (value : Json) (w v : Nat), parse_uint_value value = .ok v →
        0 < v → v < 2 ^ (8 * w) →
        ∃ b t, parse_uint_to_min_be value w = .ok (b :: t) ∧ b ≠ 0 ∧
          beBytesToNat (b :: t) = v ∧
          ∀ l : List Nat, (∀ x ∈ l, x < 256) → beBytesToNat l = v →
            (b :: t).length ≤ l.length)
    ∧ (∀ w : Nat, 1 ≤ w →
        (uint_min_be_encode (2 ^ (8 * w) - 1) w).map List.length = .ok w) := by
  refine ⟨?_, ?_, ?_, ?_⟩
  · intro value w v hok hge
    rw [parse_uint_to_min_be_ok hok, uint_min_be_encode_oor hge]
  · intro value w hok
    rw [parse_uint_to_min_be_ok hok, uint_min_be_encode_zero]
  · intro value w v hok hpos hlt
    obtain ⟨b, t, heq, hb⟩ := natToBEBytes_head v (by omega)
    refine ⟨b, t, ?_, hb, ?_, ?_⟩
    · rw [parse_uint_to_min_be_ok hok, uint_min_be_encode_pos hpos hlt, heq]
    · rw [← heq, beBytesToNat_natToBEBytes]
    · intro l hl hval
      have h1 : v < 256 ^ l.length := hval ▸ beBytesToNat_lt hl
      have h2 : (natToBEBytes v).length ≤ l.length := natToBEBytes_length_le h1
      rw [← heq]
      exact h2
  · intro w hw
    have hpow : (2 : Nat) ^ (8 * w) = 256 ^ w := by
      rw [Nat.pow_mul]
    have hpos : 0 < 2 ^ (8 * w) - 1 := by
      have : (2 : Nat) ^ 8 ≤ 2 ^ (8 * w) := Nat.pow_le_pow_right (by norm_num) (by omega)
      omega
    have hlen_eq : (natToBEBytes (2 ^ (8 * w) - 1)).length = w := by
      have hle : (natToBEBytes (2 ^ (8 * w) - 1)).length ≤ w :=
        natToBEBytes_length_le (by omega)
      rcases Nat.lt_or_ge (natToBEBytes (2 ^ (8 * w) - 1)).length w with hlt | hge
      · exfalso
        have := lt_of_natToBEBytes_length_le
          (show (natToBEBytes (2 ^ (8 * w) - 1)).length ≤ w - 1 by omega)
        have hWm : 256 ^ (w - 1) * 256 = 256 ^ w := by
          rw [← pow_succ]
          congr 1
          omega
        have hWm1 : 0 < 256 ^ (w - 1) := Nat.pos_pow_of_pos _ (by norm_num)
        omega
      · omega
    rw [uint_min_be_encode_pos hpos (by omega)]
    show Except.ok (natToBEBytes (2 ^ (8 * w) - 1)).length = Except.ok w
    rw [hlen_eq]

/-- C4 witness: the general theorem applied at concrete inputs (`300` is out
of range for `uint8`, `0` and `7` in range, `2^16 − 1` exactly two
bytes). -/
theorem parse_uint_min_be_spec_witness :
    parse_uint_to_min_be (.num 300) 1 = .error .outOfRange
    ∧ parse_uint_to_min_be (.num 0) 4 = .ok [0]
    ∧ (∃ b t, parse_uint_to_min_be (.num 7) 4 = .ok (b :: t) ∧ b ≠ 0 ∧
        beBytesToNat (b :: t) = 7 ∧
        ∀ l : List Nat, (∀ x ∈ l, x < 256) → beBytesToNat l = 7 →
          (b :: t).length ≤ l.length)
    ∧ (uint_min_be_encode (2 ^ (8 * 2) - 1) 2).map List.length = .ok 2 :=
  ⟨parse_uint_min_be_spec.1 (.num 300) 1 300 (by decide) (by norm_num),
   parse_uint_min_be_spec.2.1 (.num 0) 4 (by decide),
   parse_uint_min_be_spec.2.2.1 (.num 7) 4 7 (by decide) (by norm_num) (by norm_num),
   parse_uint_min_be_spec.2.2.2 2 (by norm_num)⟩

/-- C10: `parse_uint_to_min_be` never returns the "minimal encoding
exceeds" error, for any input value and any declared byte width — once the
range check `v < 2^(8·w)` passes, the minimal big-endian encoding fits in
`w` bytes (and `0` short-circuits to `[0x00]`). -/
theorem parse_uint_exceeds_unreachable (value : Json) (w : Nat) :
    parse_uint_to_min_be value w ≠ .error .encodingExceeds := by
  cases hpv : parse_uint_value value with
  | error e =>
    rw [parse_uint_to_min_be_err hpv]
    intro hcontra
    apply parse_uint_value_no_exceeds value
    rw [hpv]
    cases hcontra
    rfl
  | ok v =>
    rw [parse_uint_to_min_be_ok hpv]
    exact uint_min_be_encode_no_exceeds v w

/-- C5 evidence: at 32-bit width the signed encoder maps both `+128` and
`−128` to the single byte `0x80` — the two's-complement reading of `0x80`
is `−128`, so `+128` is mis-encoded; the specification's encoding of `+128`
is `[0x00, 0x80]`. The claim's own examples (`−1 → [0xFF]`,
`127 → [0x7F]`, `−129 → [0xFF, 0x7F]`) do hold, as does the range
rejection at `2^31`. -/
theorem parse_int_min_be_sign_collision :
    parse_int_to_min_be (.num 128) 4 = .ok [0x80]
    ∧ parse_int_to_min_be (.num (-128)) 4 = .ok [0x80]
    ∧ twosValue [0x80] = -128
    ∧ specTwosComplMinBE 128 4 = [0x00, 0x80]
    ∧ parse_int_to_min_be (.num 128) 4 ≠ .ok (specTwosComplMinBE 128 4)
    ∧ parse_int_to_min_be (.num (-1)) 4 = .ok [0xFF]
    ∧ parse_int_to_min_be (.num 127) 4 = .ok [0x7F]
    ∧ parse_int_to_min_be (.num (-129)) 4 = .ok [0xFF, 0x7F]
    ∧ parse_int_to_min_be (.num (2 ^ 31)) 4 = .error .outOfRange
    ∧ parse_int_to_min_be (.num (-(2 ^ 31) - 1)) 4 = .error .outOfRange := by
  decide

/-- Per-level agreement of the source's array-level encoding with the
specification's wording. -/
theorem arrayLevels_flatMap_eq (ls : List Eip712ArrayLevel) :
    ls.flatMap (fun level =>
        level.type_id :: (match level.size with | some size => [size] | none => [])) =
      ls.flatMap (fun level => match level with | .dynamic => [0] | .fixed k => [1, k]) := by
  induction ls with
  | nil => rfl
  | cons a t ih =>
    cases a <;> simp only [List.flatMap_cons, ih] <;> rfl

/-- C3: `encode_field_definition` emits exactly the byte sequence the
specification describes — descriptor byte (base id OR `0x80` for arrays OR
`0x40` with a byte width), custom-name block for custom types, width byte
when present, array-level block, then the field-name block — given that
the length bytes do not truncate; and the `uint256` field `"amount"`
encodes to `0x42 0x20 0x06 "amount"`. -/
theorem encode_field_definition_layout :
    (∀ f : Eip712FieldDefinition,
        (strBytes f.name).length < 256 →
        (f.field_type.type_name.map (fun nm => (strBytes nm).length)).getD 0 < 256 →
        f.array_levels.length < 256 →
        encode_field_definition f = fieldDefSpecEncoding f)
    ∧ encode_field_definition
        { field_type := .uint 32, name := "amount", array_levels := [] }
        = 0x42 :: 0x20 :: 0x06 :: strBytes "amount" := by
  constructor
  · intro f hname hcust harr
    obtain ⟨ft, nm, levels⟩ := f
    simp only at hname hcust harr
    cases ft <;> cases levels <;>
      simp_all [encode_field_definition, fieldDefSpecEncoding,
        Eip712FieldDefinition.is_array, Eip712FieldType.type_id,
        Eip712FieldType.type_size, Eip712FieldType.type_name,
        arrayLevels_flatMap_eq, Nat.mod_eq_of_lt] <;>
      (cases ‹Eip712ArrayLevel› <;> rfl)
  · decide

/-- C3 witness: the layout theorem applied at a custom-typed,
two-array-level field. -/
theorem encode_field_definition_layout_witness :
    encode_field_definition fieldDefEx = fieldDefSpecEncoding fieldDefEx :=
  encode_field_definition_layout.1 fieldDefEx (by decide) (by decide) (by decide)

/-- `describe_eth_status` on the `0x68` page. -/
theorem describe_eth_status_high68 {sw : Nat} (h : sw &&& 0xFF00 = 0x6800) :
    describe_eth_status sw = "Internal error (Please report)" := by
  have hne : ∀ c ∈ listedStatusWords, sw ≠ c := by
    intro c hc
    fin_cases hc <;> (rintro rfl; exact absurd h (by decide))
  unfold describe_eth_status
  rw [if_neg (hne 0x6001 (by decide)), if_neg (hne 0x6501 (by decide)),
    if_neg (hne 0x6502 (by decide)), if_neg (hne 0x6982 (by decide)),
    if_neg (hne 0x6983 (by decide)), if_neg (hne 0x6984 (by decide)),
    if_neg (hne 0x6985 (by decide)), if_neg (hne 0x6A00 (by decide)),
    if_neg (hne 0x6A80 (by decide)), if_neg (hne 0x6A84 (by decide)),
    if_neg (hne 0x6A88 (by decide)), if_neg (hne 0x6B00 (by decide)),
    if_neg (hne 0x6D00 (by decide)), if_neg (hne 0x6E00 (by decide)),
    if_neg (hne 0x9000 (by decide)), if_neg (hne 0x911C (by decide)), if_pos h]

/-- `describe_eth_status` on the `0x6F` page. -/
theorem describe_eth_status_high6F {sw : Nat} (h : sw &&& 0xFF00 = 0x6F00) :
    describe_eth_status sw = "Technical problem (Internal error, please report)" := by
  have hne : ∀ c ∈ listedStatusWords, sw ≠ c := by
    intro c hc
    fin_cases hc <;> (rintro rfl; exact absurd h (by decide))
  have h68 : ¬ (sw &&& 0xFF00 = 0x6800) := by
    rw [h]
    decide
  unfold describe_eth_status
  rw [if_neg (hne 0x6001 (by decide)), if_neg (hne 0x6501 (by decide)),
    if_neg (hne 0x6502 (by decide)), if_neg (hne 0x6982 (by decide)),
    if_neg (hne 0x6983 (by decide)), if_neg (hne 0x6984 (by decide)),
    if_neg (hne 0x6985 (by decide)), if_neg (hne 0x6A00 (by decide)),
    if_neg (hne 0x6A80 (by decide)), if_neg (hne 0x6A84 (by decide)),
    if_neg (hne 0x6A88 (by decide)), if_neg (hne 0x6B00 (by decide)),
    if_neg (hne 0x6D00 (by decide)), if_neg (hne 0x6E00 (by decide)),
    if_neg (hne 0x9000 (by decide)), if_neg (hne 0x911C (by decide)),
    if_neg h68, if_pos h]

/-- `describe_eth_status` elsewhere. -/
theorem describe_eth_status_unlisted {sw : Nat} (hmem : sw ∉ listedStatusWords)
    (h68 : sw &&& 0xFF00 ≠ 0x6800) (h6F : sw &&& 0xFF00 ≠ 0x6F00) :
    describe_eth_status sw = "Unknown status" := by
  have hne : ∀ c ∈ listedStatusWords, sw ≠ c := by
    intro c hc
    rintro rfl
    exact hmem hc
  unfold describe_eth_status
  rw [if_neg (hne 0x6001 (by decide)), if_neg (hne 0x6501 (by decide)),
    if_neg (hne 0x6502 (by decide)), if_neg (hne 0x6982 (by decide)),
    if_neg (hne 0x6983 (by decide)), if_neg (hne 0x6984 (by decide)),
    if_neg (hne 0x6985 (by decide)), if_neg (hne 0x6A00 (by decide)),
    if_neg (hne 0x6A80 (by decide)), if_neg (hne 0x6A84 (by decide)),
    if_neg (hne 0x6A88 (by decide)), if_neg (hne 0x6B00 (by decide)),
    if_neg (hne 0x6D00 (by decide)), if_neg (hne 0x6E00 (by decide)),
    if_neg (hne 0x9000 (by decide)), if_neg (hne 0x911C (by decide)),
    if_neg h68, if_neg h6F]

/-- `classify_status` at the success word. -/
theorem classify_status_success (ext : ExtCodes) : classify_status ext 0x9000 = none := rfl

/-- `classify_status` at any non-success, non-cancel word. -/
theorem classify_status_error (ext : ExtCodes) {sw : Nat} (h : sw ≠ 0x9000)
    (h2 : sw ≠ 0x6982) :
    classify_status ext sw = some (.deviceStatus sw (describe_eth_status sw)) := by
  unfold classify_status handle_response_error
  rw [if_neg h]
  by_cases hk : ext.isKnown sw <;> simp [hk, map_ledger_error, h2]

/-- C6: the status classification maps `0x9000` to success and `0x6982` to
user rejection whether the code arrives enum-known (app-specific) or
unknown; every `0x68xx` word maps to the generic internal-error
description, every `0x6Fxx` word to the generic technical-problem
description; and every word outside the description table still surfaces
with its numeric value and the "Unknown status" description. -/
theorem status_mapping_spec :
    (∀ ext : ExtCodes, classify_status ext 0x9000 = none)
    ∧ (∀ ext : ExtCodes, classify_status ext 0x6982 = some .userRejected)
    ∧ (∀ (ext : ExtCodes) (sw : Nat), sw &&& 0xFF00 = 0x6800 →
        classify_status ext sw = some (.deviceStatus sw "Internal error (Please report)"))
    ∧ (∀ (ext : ExtCodes) (sw : Nat), sw &&& 0xFF00 = 0x6F00 →
        classify_status ext sw =
          some (.deviceStatus sw "Technical problem (Internal error, please report)"))
    ∧ (∀ (ext : ExtCodes) (sw : Nat), sw ∉ listedStatusWords →
        sw &&& 0xFF00 ≠ 0x6800 → sw &&& 0xFF00 ≠ 0x6F00 →
        classify_status ext sw = some (.deviceStatus sw "Unknown status")) := by
  refine ⟨classify_status_success, ?_, ?_, ?_, ?_⟩
  · intro ext
    unfold classify_status handle_response_error
    rw [if_neg (by decide)]
    by_cases hk : ext.isKnown 0x6982 <;> simp [hk, map_ledger_error]
  · intro ext sw h
    have h9 : sw ≠ 0x9000 := by
      rintro rfl
      exact absurd h (by decide)
    have h69 : sw ≠ 0x6982 := by
      rintro rfl
      exact absurd h (by decide)
    rw [classify_status_error ext h9 h69, describe_eth_status_high68 h]
  · intro ext sw h
    have h9 : sw ≠ 0x9000 := by
      rintro rfl
      exact absurd h (by decide)
    have h69 : sw ≠ 0x6982 := by
      rintro rfl
      exact absurd h (by decide)
    rw [classify_status_error ext h9 h69, describe_eth_status_high6F h]
  · intro ext sw hmem h68 h6F
    have h9 : sw ≠ 0x9000 := by
      rintro rfl
      exact absurd (by decide) hmem
    have h69 : sw ≠ 0x6982 := by
      rintro rfl
      exact absurd (by decide) hmem
    rw [classify_status_error ext h9 h69, describe_eth_status_unlisted hmem h68 h6F]

/-- C6 witness: the classification theorem applied at a concrete oracle and
concrete status words from each family. -/
theorem status_mapping_spec_witness :
    classify_status extEx 0x9000 = none
    ∧ classify_status extEx 0x6982 = some .userRejected
    ∧ classify_status extEx 0x6842 = some (.deviceStatus 0x6842 "Internal error (Please report)")
    ∧ classify_status extEx 0x6F17 =
        some (.deviceStatus 0x6F17 "Technical problem (Internal error, please report)")
    ∧ classify_status extEx 0x1234 = some (.deviceStatus 0x1234 "Unknown status") :=
  ⟨status_mapping_spec.1 extEx,
   status_mapping_spec.2.1 extEx,
   status_mapping_spec.2.2.1 extEx 0x6842 (by decide),
   status_mapping_spec.2.2.2.1 extEx 0x6F17 (by decide),
   status_mapping_spec.2.2.2.2 extEx 0x1234 (by decide) (by decide) (by decide)⟩

/-- C7: `parse_signature_response` succeeds exactly on 65-byte payloads,
returning `v = data[0]`, `r = data[1..33]`, `s = data[33..65]` with both
components of length 32; every other length is a decode error. -/
theorem parse_signature_response_spec :
    (∀ data : List Nat, data.length = 65 →
        parse_signature_response data =
          .ok { v := data.headD 0, r := (data.drop 1).take 32, s := (data.drop 33).take 32 }
        ∧ ((data.drop 1).take 32).length = 32 ∧ ((data.drop 33).take 32).length = 32)
    ∧ (∀ data : List Nat, data.length ≠ 65 →
        parse_signature_response data =
          .error (.invalidResponseData "Invalid signature response length")) := by
  constructor
  · intro data h
    have hr : ((data.drop 1).take 32).length = 32 := by
      simp [List.length_take, List.length_drop]
      omega
    have hs : ((data.drop 33).take 32).length = 32 := by
      simp [List.length_take, List.length_drop]
      omega
    refine ⟨?_, hr, hs⟩
    unfold parse_signature_response
    rw [if_neg (by omega)]
    dsimp only
    unfold Signature.new
    rw [if_neg (by omega), if_neg (by omega)]
    rfl
  · intro data h
    unfold parse_signature_response
    rw [if_pos h]

/-- C7 witness: success on a concrete 65-byte payload, failure on a 64-byte
one. -/
theorem parse_signature_response_spec_witness :
    (parse_signature_response (List.replicate 65 7) =
        .ok { v := (List.replicate 65 7).headD 0,
              r := ((List.replicate 65 7).drop 1).take 32,
              s := ((List.replicate 65 7).drop 33).take 32 }
      ∧ (((List.replicate 65 7).drop 1).take 32).length = 32
      ∧ (((List.replicate 65 7).drop 33).take 32).length = 32)
    ∧ parse_signature_response (List.replicate 64 7) =
        .error (.invalidResponseData "Invalid signature response length") :=
  ⟨parse_signature_response_spec.1 (List.replicate 65 7) (by decide),
   parse_signature_response_spec.2 (List.replicate 64 7) (by decide)⟩

/-- C8: the signature-expecting handler turns a successful status with an
empty payload into the no-signature error, and accepts a successful status
with a non-empty payload. -/
theorem handle_response_error_signature_spec :
    (∀ (ext : ExtCodes) (r : APDUAnswer), r.sw = 0x9000 → r.data = [] →
        handle_response_error_signature ext r = .error .noSignature)
    ∧ (∀ (ext : ExtCodes) (r : APDUAnswer), r.sw = 0x9000 → r.data ≠ [] →
        handle_response_error_signature ext r = .ok ()) := by
  constructor
  · intro ext r h1 h2
    simp [handle_response_error_signature, h1, h2]
  · intro ext r h1 h2
    simp [handle_response_error_signature, h1, List.isEmpty_iff, h2]

/-- C8 witness: the handler theorem applied at a successful empty response
and a successful 65-byte response. -/
theorem handle_response_error_signature_spec_witness :
    handle_response_error_signature extEx { sw := 0x9000, data := [] } =
      .error .noSignature
    ∧ handle_response_error_signature extEx { sw := 0x9000, data := [1] } = .ok () :=
  ⟨handle_response_error_signature_spec.1 extEx { sw := 0x9000, data := [] } rfl rfl,
   handle_response_error_signature_spec.2 extEx { sw := 0x9000, data := [1] } rfl
     (by decide)⟩

/-- Joining the chunks restores the list (fuel sufficient, positive chunk
size). -/
theorem chunksGo_join {n : Nat} (hn : 1 ≤ n) :
    ∀ (fuel : Nat) (l : List Nat), l.length ≤ fuel → (chunksGo n fuel l).flatten = l := by
  intro fuel
  induction fuel with
  | zero =>
    intro l h
    have : l = [] := List.eq_nil_of_length_eq_zero (by omega)
    subst this
    rfl
  | succ f ih =>
    intro l h
    cases l with
    | nil => rfl
    | cons a t =>
      show (List.take n (a :: t) :: chunksGo n f (List.drop n (a :: t))).flatten = a :: t
      rw [List.flatten_cons,
        ih _ (by
          simp only [List.length_drop, List.length_cons]
          simp only [List.length_cons] at h
          omega)]
      exact List.take_append_drop n (a :: t)

/-- The number of chunks is the rounded-up quotient. -/
theorem chunksGo_length {n : Nat} (hn : 1 ≤ n) :
    ∀ (fuel : Nat) (l : List Nat), l.length ≤ fuel →
      (chunksGo n fuel l).length = (l.length + n - 1) / n := by
  intro fuel
  induction fuel with
  | zero =>
    intro l h
    have : l = [] := List.eq_nil_of_length_eq_zero (by omega)
    subst this
    show (0 : Nat) = (0 + n - 1) / n
    rw [Nat.div_eq_of_lt (by omega)]
  | succ f ih =>
    intro l h
    cases l with
    | nil =>
      show (0 : Nat) = (0 + n - 1) / n
      rw [Nat.div_eq_of_lt (by omega)]
    | cons a t =>
      show (List.take n (a :: t) :: chunksGo n f (List.drop n (a :: t))).length = _
      simp only [List.length_cons]
      rw [ih _ (by
        simp only [List.length_drop, List.length_cons]
        simp only [List.length_cons] at h
        omega)]
      simp only [List.length_drop, List.length_cons]
      have hR : t.length + 1 + n - 1 = (t.length + 1 - 1) + n := by omega
      rw [hR, Nat.add_div_right _ (by omega)]
      rcases le_or_lt (t.length + 1) n with hle | hlt
      · have h1 : t.length + 1 - n + n - 1 = n - 1 := by omega
        have h2 : (n - 1) / n = 0 := Nat.div_eq_of_lt (by omega)
        have h3 : (t.length + 1 - 1) / n = 0 := Nat.div_eq_of_lt (by omega)
        rw [h1, h2, h3]
      · have h1 : t.length + 1 - n + n - 1 = t.length + 1 - 1 := by omega
        rw [h1]

/-- `rustChunks` length at positive chunk size. -/
theorem rustChunks_length {n : Nat} (hn : 1 ≤ n) (l : List Nat) :
    (rustChunks n l).length = (l.length + n - 1) / n :=
  chunksGo_length hn l.length l le_rfl

/-- `rustChunks` join at positive chunk size. -/
theorem rustChunks_join {n : Nat} (hn : 1 ≤ n) (l : List Nat) :
    ((rustChunks n l).flatten) = l :=
  chunksGo_join hn l.length l le_rfl

/-- The chunk loop under an all-success device: it sends every chunk,
tagged `Add`/`Last`, and returns the last response. -/
theorem send_chunks_loop_success (dev : Device) (ext : ExtCodes) (lastIdx : Nat)
    (hdev : ∀ i, (dev i).sw = 0x9000) :
    ∀ (cs : List (List Nat)) (k : Nat) (prev : APDUAnswer),
      send_chunks_loop dev ext lastIdx k prev cs =
        (tagChunks lastIdx k cs,
         .ok (if cs.isEmpty then prev else dev (k + cs.length))) := by
  intro cs
  induction cs with
  | nil => intro k prev; rfl
  | cons c rest ih =>
    intro k prev
    simp only [send_chunks_loop, tagChunks]
    rw [if_pos (hdev (k + 1)), ih (k + 1) (dev (k + 1))]
    cases rest with
    | nil => simp
    | cons d ds =>
      have harith : k + 1 + (ds.length + 1) = k + (ds.length + 1 + 1) := by omega
      simp [harith]

/-- The frame bodies of `tagChunks` are the chunks. -/
theorem tagChunks_map_snd (lastIdx : Nat) :
    ∀ (cs : List (List Nat)) (k : Nat), (tagChunks lastIdx k cs).map Prod.snd = cs := by
  intro cs
  induction cs with
  | nil => intro k; rfl
  | cons c rest ih =>
    intro k
    simp only [tagChunks, List.map_cons, ih (k + 1)]

/-- `tagChunks` preserves length. -/
theorem tagChunks_length (lastIdx : Nat) :
    ∀ (cs : List (List Nat)) (k : Nat), (tagChunks lastIdx k cs).length = cs.length := by
  intro cs
  induction cs with
  | nil => intro k; rfl
  | cons c rest ih =>
    intro k
    simp only [tagChunks, List.length_cons, ih (k + 1)]

/-- The `p1` marker of the `i`-th frame of `tagChunks`. -/
theorem tagChunks_get_fst (lastIdx : Nat) :
    ∀ (cs : List (List Nat)) (k i : Nat) (hi : i < (tagChunks lastIdx k cs).length),
      ((tagChunks lastIdx k cs).get ⟨i, hi⟩).1 =
        if k + i = lastIdx then chunkLast else chunkAdd := by
  intro cs
  induction cs with
  | nil =>
    intro k i hi
    simp [tagChunks] at hi
  | cons c rest ih =>
    intro k i hi
    cases i with
    | zero => simp [tagChunks]
    | succ j =>
      have hj : j < (tagChunks lastIdx (k + 1) rest).length := by
        simp only [tagChunks, List.length_cons] at hi
        omega
      show ((tagChunks lastIdx (k + 1) rest).get ⟨j, hj⟩).1 = _
      rw [ih (k + 1) j hj]
      have : k + 1 + j = k + (j + 1) := by omega
      rw [this]

/-- C2: for `0 < len(P) ≤ 255·250` and an all-success device, `send_chunks`
performs the `Init`-tagged template exchange first and then exactly
`⌈len(P)/250⌉` payload frames whose bodies concatenate to `P`, every frame
tagged `Add` except the last, tagged `Last`. -/
theorem send_chunks_split_spec :
    ∀ (dev : Device) (ext : ExtCodes) (cmd : APDUCommand) (msg : List Nat),
      0 < msg.length → msg.length ≤ 255 * 250 → cmd.p1 = chunkInit →
      (∀ i, (dev i).sw = 0x9000) →
      ∃ tail, (send_chunks dev ext cmd msg).1 = (chunkInit, cmd.data) :: tail ∧
        tail.length = (msg.length + 249) / 250 ∧
        (tail.map Prod.snd).flatten = msg ∧
        (∀ i (hi : i < tail.length),
          (tail.get ⟨i, hi⟩).1 = if i = tail.length - 1 then chunkLast else chunkAdd) := by
  intro dev ext cmd msg hpos hbound hp1 hdev
  have hlen : (rustChunks USER_MESSAGE_CHUNK_SIZE msg).length = (msg.length + 249) / 250 := by
    rw [rustChunks_length (by decide)]
    simp only [USER_MESSAGE_CHUNK_SIZE]
    omega
  have hc1 : (rustChunks USER_MESSAGE_CHUNK_SIZE msg).length ≠ 0 := by
    rw [hlen]
    omega
  have hc2 : ¬ ((rustChunks USER_MESSAGE_CHUNK_SIZE msg).length > 255) := by
    rw [hlen]
    omega
  refine ⟨tagChunks ((rustChunks USER_MESSAGE_CHUNK_SIZE msg).length - 1) 0
    (rustChunks USER_MESSAGE_CHUNK_SIZE msg), ?_, ?_, ?_, ?_⟩
  · unfold send_chunks
    rw [if_neg hc1, if_neg hc2, if_neg (by simp [hp1]), if_pos (hdev 0),
      send_chunks_loop_success dev ext _ hdev, hp1]
  · rw [tagChunks_length, hlen]
  · rw [tagChunks_map_snd, rustChunks_join (by decide)]
  · intro i hi
    rw [tagChunks_get_fst]
    rw [tagChunks_length] at hi
    have : (0 : Nat) + i = i := by omega
    rw [this, tagChunks_length]

/-- C2 witness: the splitting theorem applied at a 600-byte message — one
`Init` template frame then three payload frames. -/
theorem send_chunks_split_spec_witness :
    ∃ tail,
      (send_chunks devAllSuccess extEx { cla := 0xE0, ins := 8, p1 := 0, p2 := 0, data := [] }
          (List.replicate 600 7)).1 = (chunkInit, []) :: tail ∧
        tail.length = ((List.replicate 600 7 : List Nat).length + 249) / 250 ∧
        (tail.map Prod.snd).flatten = List.replicate 600 7 ∧
        (∀ i (hi : i < tail.length),
          (tail.get ⟨i, hi⟩).1 = if i = tail.length - 1 then chunkLast else chunkAdd) :=
  send_chunks_split_spec devAllSuccess extEx
    { cla := 0xE0, ins := 8, p1 := 0, p2 := 0, data := [] } (List.replicate 600 7)
    (by rw [List.length_replicate]; norm_num) (by rw [List.length_replicate]; norm_num)
    rfl (fun _ => rfl)

/-- C9: `send_chunks` rejects an empty payload, a payload needing more than
255 frames, and a template whose `p1` is not `Init`, in every case with an
empty frame trace — before any device I/O. -/
theorem send_chunks_reject_spec :
    (∀ (dev : Device) (ext : ExtCodes) (cmd : APDUCommand),
        send_chunks dev ext cmd [] = ([], .error .invalidEmptyMessage))
    ∧ (∀ (dev : Device) (ext : ExtCodes) (cmd : APDUCommand) (msg : List Nat),
        255 * 250 < msg.length →
        send_chunks dev ext cmd msg = ([], .error .invalidMessageSize))
    ∧ (∀ (dev : Device) (ext : ExtCodes) (cmd : APDUCommand) (msg : List Nat),
        0 < msg.length → msg.length ≤ 255 * 250 → cmd.p1 ≠ chunkInit →
        send_chunks dev ext cmd msg = ([], .error .invalidChunkPayloadType))
    ∧ (∀ (dev : Device) (ext : ExtCodes) (cmd : APDUCommand) (msg : List Nat),
        cmd.p1 ≠ chunkInit →
        (send_chunks dev ext cmd msg).1 = [] ∧
          ∃ e, (send_chunks dev ext cmd msg).2 = .error e) := by
  refine ⟨?_, ?_, ?_, ?_⟩
  · intro dev ext cmd
    rfl
  · intro dev ext cmd msg hbig
    have hlen : (rustChunks USER_MESSAGE_CHUNK_SIZE msg).length = (msg.length + 249) / 250 := by
      rw [rustChunks_length (by decide)]
      simp only [USER_MESSAGE_CHUNK_SIZE]
      omega
    unfold send_chunks
    rw [if_neg (by rw [hlen]; omega), if_pos (by rw [hlen]; omega)]
  · intro dev ext cmd msg hpos hbound hp1
    have hlen : (rustChunks USER_MESSAGE_CHUNK_SIZE msg).length = (msg.length + 249) / 250 := by
      rw [rustChunks_length (by decide)]
      simp only [USER_MESSAGE_CHUNK_SIZE]
      omega
    unfold send_chunks
    rw [if_neg (by rw [hlen]; omega), if_neg (by rw [hlen]; omega), if_pos hp1]
  · intro dev ext cmd msg hp1
    unfold send_chunks
    by_cases h0 : (rustChunks USER_MESSAGE_CHUNK_SIZE msg).length = 0
    · rw [if_pos h0]
      exact ⟨rfl, .invalidEmptyMessage, rfl⟩
    · rw [if_neg h0]
      by_cases hbig : (rustChunks USER_MESSAGE_CHUNK_SIZE msg).length > 255
      · rw [if_pos hbig]
        exact ⟨rfl, .invalidMessageSize, rfl⟩
      · rw [if_neg hbig, if_pos hp1]
        exact ⟨rfl, .invalidChunkPayloadType, rfl⟩

/-- C9 witness: the rejection theorem applied at an empty message, a
63751-byte message, and a 10-byte message with a non-`Init` template. -/
theorem send_chunks_reject_spec_witness :
    send_chunks devAllSuccess extEx { cla := 0, ins := 0, p1 := 0, p2 := 0, data := [] } [] =
      ([], .error .invalidEmptyMessage)
    ∧ send_chunks devAllSuccess extEx { cla := 0, ins := 0, p1 := 0, p2 := 0, data := [] }
        (List.replicate 63751 1) = ([], .error .invalidMessageSize)
    ∧ send_chunks devAllSuccess extEx { cla := 0, ins := 0, p1 := 1, p2 := 0, data := [] }
        (List.replicate 10 1) = ([], .error .invalidChunkPayloadType)
    ∧ ((send_chunks devAllSuccess extEx { cla := 0, ins := 0, p1 := 2, p2 := 0, data := [] }
          (List.replicate 10 1)).1 = [] ∧
        ∃ e, (send_chunks devAllSuccess extEx { cla := 0, ins := 0, p1 := 2, p2 := 0, data := [] }
          (List.replicate 10 1)).2 = .error e) :=
  ⟨send_chunks_reject_spec.1 devAllSuccess extEx _,
   send_chunks_reject_spec.2.1 devAllSuccess extEx _ (List.replicate 63751 1)
     (by rw [List.length_replicate]; norm_num),
   send_chunks_reject_spec.2.2.1 devAllSuccess extEx _ (List.replicate 10 1)
     (by rw [List.length_replicate]; norm_num)
     (by rw [List.length_replicate]; norm_num) (by decide),
   send_chunks_reject_spec.2.2.2 devAllSuccess extEx _ (List.replicate 10 1) (by decide)⟩

/-- Running a planned exchange sequence when every needed exchange
succeeds: everything is attempted, in order. -/
theorem run_exchs_all_success (dev : Device) :
    ∀ (l : List Exch) (k : Nat), (∀ i, i < l.length → (dev (k + i)).sw = 0x9000) →
      run_exchs dev l k = (l, k + l.length, true) := by
  intro l
  induction l with
  | nil =>
    intro k _
    simp [run_exchs]
  | cons e rest ih =>
    intro k hdev
    have h0 : (dev k).sw = 0x9000 := by
      have := hdev 0 (by simp)
      simpa using this
    have hrest : ∀ i, i < rest.length → (dev (k + 1 + i)).sw = 0x9000 := by
      intro i hi
      have := hdev (i + 1) (by simp; omega)
      have harith : k + (i + 1) = k + 1 + i := by omega
      rwa [harith] at this
    simp only [run_exchs, if_pos h0, ih (k + 1) hrest]
    simp only [List.length_cons]
    have harith : k + 1 + rest.length = k + (rest.length + 1) := by omega
    rw [harith]

/-- Running a planned exchange sequence against a device whose `j`-th
exchange fails (all earlier ones succeeding): exactly the first `j + 1`
exchanges are attempted, and the run reports failure — the remainder is
never attempted. -/
theorem run_exchs_abort (dev : Device) :
    ∀ (l : List Exch) (k j : Nat), j < l.length →
      (∀ i, i < j → (dev (k + i)).sw = 0x9000) → (dev (k + j)).sw ≠ 0x9000 →
      run_exchs dev l k = (l.take (j + 1), k + j + 1, false) := by
  intro l
  induction l with
  | nil =>
    intro k j hj _ _
    simp at hj
  | cons e rest ih =>
    intro k j hj hok hfail
    cases j with
    | zero =>
      have h0 : (dev k).sw ≠ 0x9000 := by simpa using hfail
      simp only [run_exchs, if_neg h0, List.take_succ_cons, List.take_zero]
    | succ j' =>
      have h0 : (dev k).sw = 0x9000 := by
        have := hok 0 (by omega)
        simpa using this
      have hok' : ∀ i, i < j' → (dev (k + 1 + i)).sw = 0x9000 := by
        intro i hi
        have := hok (i + 1) (by omega)
        have harith : k + (i + 1) = k + 1 + i := by omega
        rwa [harith] at this
      have hfail' : (dev (k + 1 + j')).sw ≠ 0x9000 := by
        have harith : k + (j' + 1) = k + 1 + j' := by omega
        rwa [harith] at hfail
      have hj' : j' < rest.length := by
        simp only [List.length_cons] at hj
        omega
      simp only [run_exchs, if_pos h0, ih (k + 1) j' hj' hok' hfail',
        List.take_succ_cons]
      have harith : k + 1 + j' + 1 = k + (j' + 1) + 1 := by omega
      rw [harith]

/-- C1 counterexample: on the minimal scenario document, the high-level
EIP-712 flow plans fifteen exchanges, not fourteen. -/
theorem sign_eip712_scenario_not_fourteen :
    (sign_eip712_typed_data_exchs scenarioPath scenarioTypedData).map List.length = .ok 15
    ∧ (sign_eip712_typed_data_exchs scenarioPath scenarioTypedData).map List.length ≠
        .ok 14 := by
  decide

/-- C1 (amended): on the minimal scenario document the flow performs
exactly the fifteen exchanges of `scenarioExchList`, in the claimed order —
domain type name, four domain field definitions in declared order, message
type name, message field definition, domain root struct, four domain
values, message root struct, message value, signing; each exchange must
report success before the next is attempted, and a non-success status at
any exchange aborts the remaining sequence. -/
theorem sign_eip712_scenario_exchanges :
    sign_eip712_typed_data_exchs scenarioPath scenarioTypedData = .ok scenarioExchList
    ∧ scenarioExchList.length = 15
    ∧ (∀ dev : Device, (∀ i, i < 15 → (dev i).sw = 0x9000) →
        run_exchs dev scenarioExchList 0 = (scenarioExchList, 15, true))
    ∧ (∀ (dev : Device) (j : Nat), j < 15 →
        (∀ i, i < j → (dev i).sw = 0x9000) → (dev j).sw ≠ 0x9000 →
        run_exchs dev scenarioExchList 0 = (scenarioExchList.take (j + 1), j + 1, false)) := by
  refine ⟨by decide, by decide, ?_, ?_⟩
  · intro dev hdev
    have hlen : scenarioExchList.length = 15 := by decide
    have h := run_exchs_all_success dev scenarioExchList 0
      (by rw [hlen]; intro i hi; simpa using hdev i hi)
    rw [hlen] at h
    simpa using h
  · intro dev j hj hok hfail
    have hlen : scenarioExchList.length = 15 := by decide
    have h := run_exchs_abort dev scenarioExchList 0 j (by rw [hlen]; exact hj)
      (by intro i hi; simpa using hok i hi) (by simpa using hfail)
    simpa using h

/-- C1 witness: the amended theorem applied at an all-success device. -/
theorem sign_eip712_scenario_exchanges_witness :
    run_exchs devAllSuccess scenarioExchList 0 = (scenarioExchList, 15, true) :=
  sign_eip712_scenario_exchanges.2.2.1 devAllSuccess (fun _ _ => rfl)

end LedgerSdk
